import Mathlib

/-!
Verification development for the touring media aggregator core.

The definitions below are shallow embeddings of the Rust source:
  * src/plugins/plugin.rs   (sandbox per-call contract, allow-list, retry)
  * src/plugins.rs          (plugin manager, first-hit fan-out, slot sorting)
  * src/db.rs               (TTL cache over the search_cache table)
  * src/dao.rs              (upserts, lookups, series preferences)
  * src/lib.rs              (aggregator: cached search, identity mapping,
                             chapter-image caching, query normalization)

External collaborators (the url crate's parser, serde_json, the wasm guest,
SQL driver) are modelled as explicit function parameters; machine-level
effects (sleeps, epoch deadlines, logging) are outside the observable
behaviour the claims speak about and are not part of the state.
-/

namespace Touring

/-- Media kind as produced by the WIT bindings (MediaType in plugins.rs). -/
inductive MediaType
  | manga
  | anime
  | otherMedia (s : String)
deriving DecidableEq, Repr

/-- Unit kind (UnitKind in plugins.rs). -/
inductive UnitKind
  | chapter
  | episode
  | sectionKind
  | otherUnit (s : String)
deriving DecidableEq, Repr

/-- Asset kind (AssetKind in plugins.rs). -/
inductive AssetKind
  | page
  | image
  | video
  | otherAsset (s : String)
deriving DecidableEq, Repr

/-- Media record returned by fetchMediaList. -/
structure Media where
  id : String
  mediatype : MediaType
  title : String
  description : Option String
  url : Option String
  cover_url : Option String
deriving DecidableEq, Repr

/-- Unit record (chapter/episode) returned by fetchUnits. -/
structure UnitT where
  id : String
  title : String
  number_text : Option String
  lang : Option String
  group : Option String
  url : Option String
  published_at : Option String
  upload_group : Option String
  kind : UnitKind
deriving DecidableEq, Repr

/-- Asset record returned by fetchAssets. -/
structure Asset where
  url : String
  mime : Option String
  width : Option Nat
  height : Option Nat
  kind : AssetKind
deriving DecidableEq, Repr

/-- Provider capabilities declared by a plugin. -/
structure ProviderCapabilities where
  media_types : List MediaType
  unit_kinds : List UnitKind
  asset_kinds : List AssetKind
deriving DecidableEq, Repr

/-- Decidable equality for Except results, used to evaluate the embedding
on concrete inputs. -/
instance {ε α : Type} [DecidableEq ε] [DecidableEq α] :
    DecidableEq (Except ε α) := fun a b =>
  match a, b with
  | .ok x, .ok y =>
    if h : x = y then .isTrue (by rw [h])
    else .isFalse (fun hh => by cases hh; exact h rfl)
  | .error x, .error y =>
    if h : x = y then .isTrue (by rw [h])
    else .isFalse (fun hh => by cases hh; exact h rfl)
  | .ok _, .error _ => .isFalse (fun hh => by cases hh)
  | .error _, .ok _ => .isFalse (fun hh => by cases hh)

/-- Result of parsing a URL with the url crate: the scheme and the optional
host (`Url::scheme` / `Url::host_str`). The parser itself is an external
collaborator, so it is a parameter of the embedding. -/
structure UrlParts where
  scheme : String
  host : Option String
deriving DecidableEq, Repr

/-- Abstract URL parser standing for `url::Url::parse` (None = parse error). -/
abbrev UrlParser : Type := String → Option UrlParts

/-- Character-level ASCII lowercasing, as `char::to_ascii_lowercase` in Rust:
only the letters A..Z are mapped, every other character is untouched. -/
def asciiLowerChar (c : Char) : Char :=
  match c with
  | 'A' => 'a' | 'B' => 'b' | 'C' => 'c' | 'D' => 'd' | 'E' => 'e' | 'F' => 'f'
  | 'G' => 'g' | 'H' => 'h' | 'I' => 'i' | 'J' => 'j' | 'K' => 'k' | 'L' => 'l'
  | 'M' => 'm' | 'N' => 'n' | 'O' => 'o' | 'P' => 'p' | 'Q' => 'q' | 'R' => 'r'
  | 'S' => 's' | 'T' => 't' | 'U' => 'u' | 'V' => 'v' | 'W' => 'w' | 'X' => 'x'
  | 'Y' => 'y' | 'Z' => 'z'
  | c => c

/-- String-level ASCII lowercasing (`str::to_ascii_lowercase`). -/
def asciiLower (s : String) : String := String.mk (s.data.map asciiLowerChar)

/-- Plugin state relevant to the claims: the stem name and the allow-list
loaded from the sibling .toml (entries already trimmed and lowercased by
Plugin::new; None when the key is absent from the config). -/
structure PluginM where
  name : String
  allowed_hosts : Option (List String)

/-- Matching of one allow-list entry against a lowercased host, as in the
closure inside Plugin::url_allowed: an entry starting with "*." matches the
apex or any subdomain; any other entry must match exactly. -/
def entryMatches (host : String) (allowed : String) : Bool :=
  if List.isPrefixOf "*.".data allowed.data then
    let stripped : List Char := allowed.data.drop 2
    host.data == stripped || List.isSuffixOf ('.' :: stripped) host.data
  else host == allowed

/-- Plugin::url_allowed from src/plugins/plugin.rs lines 148-165. -/
def url_allowed (parse : UrlParser) (allowed_hosts : Option (List String))
    (url : String) : Bool :=
  match allowed_hosts with
  | none => true
  | some list =>
    if list.isEmpty then false
    else
      match parse url with
      | none => false
      | some parsed =>
        if parsed.scheme = "http" ∨ parsed.scheme = "https" then
          match parsed.host with
          | none => false
          | some h =>
            let host := asciiLower h
            list.any (fun allowed => entryMatches host allowed)
        else false

/-- Plugin::retry_once from src/plugins/plugin.rs lines 129-146. The guest
invocation is abstracted as `attempts n`, the outcome of the n-th attempt
(the source closure also sets and clears the epoch deadline around each
attempt and sleeps 200 ms before the retry; those effects carry no data).
Returns the final result together with the number of attempts made. -/
def retry_once {α : Type} (attempts : Nat → Except String α) (op : String) :
    Except String α × Nat :=
  match attempts 0 with
  | .ok v => (.ok v, 1)
  | .error _ =>
    match attempts 1 with
    | .ok v => (.ok v, 2)
    | .error e => (.error (op ++ " after retry: " ++ e), 2)

/-- Test `matches!(&self.allowed_hosts, Some(v) if v.is_empty())` used to
short-circuit every fetch operation. -/
def emptyAllowed (p : PluginM) : Bool :=
  match p.allowed_hosts with
  | some [] => true
  | _ => false

/-- Substring containment on character lists (Rust `str::contains` with a
literal needle). -/
def containsSub (needle : List Char) : List Char → Bool
  | [] => needle.isEmpty
  | c :: rest => List.isPrefixOf needle (c :: rest) || containsSub needle rest

/-- Test `self.name.contains("mangadex_plugin")` that gates the host-side
fallbacks. -/
def nameMangadex (p : PluginM) : Bool :=
  containsSub "mangadex_plugin".data p.name.data

/-- Sentinel filter in Plugin::fetch_media_list: guest entries whose id is
"error" or whose title starts with "HTTP Error:" are discarded. -/
def sentinelOk (m : Media) : Bool :=
  m.id ≠ "error" && !(List.isPrefixOf "HTTP Error:".data m.title.data)

/-- Null out the url / cover_url fields of a Media whose URL is not allowed
(the post-filter loop of fetch_media_list). -/
def nullMediaUrls (ua : String → Bool) (m : Media) : Media :=
  { m with
    url := match m.url with
      | some u => if ua u then some u else none
      | none => none
    cover_url := match m.cover_url with
      | some c => if ua c then some c else none
      | none => none }

/-- Null out the url field of a Unit whose URL is not allowed (the
post-filter loop of fetch_units). -/
def nullUnitUrl (ua : String → Bool) (u : UnitT) : UnitT :=
  { u with
    url := match u.url with
      | some uu => if ua uu then some uu else none
      | none => none }

/-- List selection in fetch_media_list after the retried guest call: filter
sentinels; a non-empty filtered list wins; otherwise the mangadex fallback
applies only to a plugin whose name contains "mangadex_plugin" searching
Manga; otherwise empty. -/
def chooseMedia (p : PluginM) (kind : MediaType)
    (res : Except String (List Media)) (fallback : List Media) : List Media :=
  match res with
  | .ok v =>
    let filtered := v.filter sentinelOk
    if !filtered.isEmpty then filtered
    else if nameMangadex p && kind == MediaType.manga then fallback else []
  | .error _ =>
    if nameMangadex p && kind == MediaType.manga then fallback else []

/-- List selection in fetch_units: a non-empty guest list wins; otherwise
the mangadex fallback for a mangadex-named plugin; otherwise empty. -/
def chooseUnits (p : PluginM) (res : Except String (List UnitT))
    (fallback : List UnitT) : List UnitT :=
  match res with
  | .ok v => if !v.isEmpty then v else if nameMangadex p then fallback else []
  | .error _ => if nameMangadex p then fallback else []

/-- List selection in fetch_assets, same shape as chooseUnits. -/
def chooseAssets (p : PluginM) (res : Except String (List Asset))
    (fallback : List Asset) : List Asset :=
  match res with
  | .ok v => if !v.isEmpty then v else if nameMangadex p then fallback else []
  | .error _ => if nameMangadex p then fallback else []

/-- Plugin::fetch_media_list from src/plugins/plugin.rs lines 167-197.
`attempts` abstracts call_fetchmedialist on the guest, `fallback` the result
of the host-side mangadex HTTP fallback. The Bool records whether the
sandboxed component was entered at all. -/
def fetch_media_list (parse : UrlParser) (p : PluginM) (kind : MediaType)
    (attempts : Nat → Except String (List Media)) (fallback : List Media) :
    Except String (List Media) × Bool :=
  if emptyAllowed p then (.ok [], false)
  else
    let res := (retry_once attempts "fetchmedialist").1
    let list := chooseMedia p kind res fallback
    (.ok (list.map (nullMediaUrls (url_allowed parse p.allowed_hosts))), true)

/-- Plugin::fetch_units from src/plugins/plugin.rs lines 199-220. -/
def fetch_units (parse : UrlParser) (p : PluginM)
    (attempts : Nat → Except String (List UnitT)) (fallback : List UnitT) :
    Except String (List UnitT) × Bool :=
  if emptyAllowed p then (.ok [], false)
  else
    let res := (retry_once attempts "fetchunits").1
    let units := chooseUnits p res fallback
    (.ok (units.map (nullUnitUrl (url_allowed parse p.allowed_hosts))), true)

/-- Plugin::fetch_assets from src/plugins/plugin.rs lines 222-243: assets
whose URL is not allowed are dropped whole. -/
def fetch_assets (parse : UrlParser) (p : PluginM)
    (attempts : Nat → Except String (List Asset)) (fallback : List Asset) :
    Except String (List Asset) × Bool :=
  if emptyAllowed p then (.ok [], false)
  else
    let res := (retry_once attempts "fetchassets").1
    let assets := chooseAssets p res fallback
    (.ok (assets.filter (fun a => url_allowed parse p.allowed_hosts a.url)), true)

/-- Plugin::get_capabilities_refresh from src/plugins/plugin.rs lines
245-264: the retried guest call; on success the capabilities are stored, on
failure the error is returned and the stored value is kept. -/
def get_capabilities_refresh
    (attempts : Nat → Except String ProviderCapabilities)
    (oldCaps : Option ProviderCapabilities) :
    Except String ProviderCapabilities × Option ProviderCapabilities :=
  match (retry_once attempts "getcapabilities").1 with
  | .ok c => (.ok c, some c)
  | .error e => (.error e, oldCaps)

/-! ## Storage facade: the TTL cache (src/db.rs) -/

/-- State of the search_cache table, unique on key: each key holds at most
one (payload, expires_at) row. -/
abbrev Cache : Type := String → Option (String × Int)

/-- Empty cache table. -/
def emptyCache : Cache := fun _ => none

/-- Database::get_cache from src/db.rs lines 91-100:
SELECT payload FROM search_cache WHERE key = ? AND expires_at > ?. -/
def get_cache (c : Cache) (key : String) (now : Int) : Option String :=
  match c key with
  | some (payload, expires_at) => if expires_at > now then some payload else none
  | none => none

/-- Database::put_cache from src/db.rs lines 102-112: insert-or-replace on
key, overwriting payload and expires_at. -/
def put_cache (c : Cache) (key payload : String) (expires_at : Int) : Cache :=
  fun k => if k = key then some (payload, expires_at) else c k

/-! ## DAO: chapters, series sources, series preferences (src/dao.rs) -/

/-- Row of the chapters table (columns bound by upsert_chapter; the insert
binds the struct field `group` into column `volume`). -/
structure ChapterRow where
  id : String
  series_id : String
  source_id : String
  external_id : String
  number_text : Option String
  number_num : Option Float
  title : Option String
  lang : Option String
  volume : Option String
  published_at : Option String
  upload_group : Option String
  updated_at : Int
deriving Repr

/-- Input struct ChapterInsert from src/dao.rs. -/
structure ChapterInsert where
  id : String
  series_id : String
  source_id : String
  external_id : String
  number_text : Option String
  number_num : Option Float
  title : Option String
  lang : Option String
  group : Option String
  published_at : Option String
  upload_group : Option String
deriving Repr

/-- Uniqueness key of the chapters table. -/
def chapterKeyMatches (c : ChapterInsert) (r : ChapterRow) : Bool :=
  r.series_id == c.series_id && r.source_id == c.source_id &&
    r.external_id == c.external_id

/-- Row produced by the insert arm of upsert_chapter. -/
def chapterRowOfInsert (c : ChapterInsert) (now : Int) : ChapterRow :=
  { id := c.id, series_id := c.series_id, source_id := c.source_id,
    external_id := c.external_id, number_text := c.number_text,
    number_num := c.number_num, title := c.title, lang := c.lang,
    volume := c.group, published_at := c.published_at,
    upload_group := c.upload_group, updated_at := now }

/-- Conflict arm of upsert_chapter: DO UPDATE SET id, number_text,
number_num, title, lang, volume, published_at, updated_at — the identity
keys and upload_group are not in the SET list and keep their stored value. -/
def chapterRowUpdate (r : ChapterRow) (c : ChapterInsert) (now : Int) :
    ChapterRow :=
  { r with
    id := c.id
    number_text := c.number_text
    number_num := c.number_num
    title := c.title
    lang := c.lang
    volume := c.group
    published_at := c.published_at
    updated_at := now }

/-- upsert_chapter from src/dao.rs lines 126-144, over a list model of the
chapters table (unique on (series_id, source_id, external_id)). -/
def upsert_chapter (table : List ChapterRow) (c : ChapterInsert) (now : Int) :
    List ChapterRow :=
  if table.any (chapterKeyMatches c) then
    table.map (fun r => if chapterKeyMatches c r then chapterRowUpdate r c now else r)
  else table ++ [chapterRowOfInsert c now]

/-- Row of the series_sources table. -/
structure SeriesSourceRow where
  series_id : String
  source_id : String
  external_id : String
deriving DecidableEq, Repr

/-- upsert_series_source from src/dao.rs lines 114-124: INSERT, and ON
CONFLICT(series_id, source_id, external_id) only touch last_synced_at. -/
def upsert_series_source (rows : List SeriesSourceRow) (row : SeriesSourceRow) :
    List SeriesSourceRow :=
  if rows.any (fun r => r == row) then rows else rows ++ [row]

/-- find_series_id_by_source_external from src/dao.rs lines 207-220. -/
def find_series_id_by_source_external (rows : List SeriesSourceRow)
    (source_id external_id : String) : Option String :=
  (rows.find? (fun r => r.source_id == source_id && r.external_id == external_id)).map
    (fun r => r.series_id)

/-- Series table modelled as the rows touched by upsert_series (only the
columns the claims observe: id and title). -/
def upsert_series (series : List (String × String)) (id title : String) :
    List (String × String) :=
  if series.any (fun s => s.1 == id) then
    series.map (fun s => if s.1 == id then (id, title) else s)
  else series ++ [(id, title)]

/-- State threaded through the identity layer: the series and series_sources
tables plus the local UUID generator (uuid::Uuid::new_v4 drawn as
supply counter, counter incremented per draw). -/
structure MapState where
  series : List (String × String)
  rows : List SeriesSourceRow
  supply : Nat → String
  counter : Nat

/-- Touring::get_or_create_series_id from src/lib.rs lines 956-967: return
the existing mapping if one exists for (source_id, external_id); otherwise
draw a fresh UUID, upsert the series row from the media stub and insert the
mapping. Returns the series id and the new state. -/
def get_or_create_series_id (st : MapState) (source_id external_id : String)
    (media : Media) : String × MapState :=
  match find_series_id_by_source_external st.rows source_id external_id with
  | some existing => (existing, st)
  | none =>
    let new_id := st.supply st.counter
    (new_id,
     { series := upsert_series st.series new_id media.title,
       rows := upsert_series_source st.rows ⟨new_id, source_id, external_id⟩,
       supply := st.supply, counter := st.counter + 1 })

/-- Rows of series_sources mapping a given (source_id, external_id) pair. -/
def countPair (rows : List SeriesSourceRow) (source_id external_id : String) :
    Nat :=
  rows.countP (fun r => r.source_id == source_id && r.external_id == external_id)

/-- Series preferences row (series_prefs). -/
abbrev PrefsTable : Type := List (String × Option String)

/-- get_series_pref from src/dao.rs lines 401-421: the stored download_path
goes through COALESCE(download_path, '') and an empty string is mapped back
to None. -/
def get_series_pref (prefs : PrefsTable) (series_id : String) :
    Option (Option String) :=
  (prefs.find? (fun r => r.1 == series_id)).map
    (fun r =>
      match r.2 with
      | some s => if s == "" then none else some s
      | none => none)

/-- Touring::get_series_download_path from src/lib.rs lines 414-417:
get_series_pref(...).and_then(|p| p.download_path). -/
def get_series_download_path (prefs : PrefsTable) (series_id : String) :
    Option String :=
  match get_series_pref prefs series_id with
  | some dp => dp
  | none => none

/-- set_series_download_path from src/dao.rs lines 423-445: reject a missing
series with a NotFound-style error before writing; otherwise
insert-or-update the single prefs row for the series. -/
def set_series_download_path (series : List String) (prefs : PrefsTable)
    (series_id : String) (path : Option String) : Except String PrefsTable :=
  if series.any (fun s => s == series_id) then
    .ok
      (if prefs.any (fun r => r.1 == series_id) then
        prefs.map (fun r => if r.1 == series_id then (series_id, path) else r)
      else prefs ++ [(series_id, path)])
  else .error ("Series not found: " ++ series_id)

/-! ## Query normalization and the cached search (src/lib.rs) -/

/-- Unicode White_Space test, as Rust's `char::is_whitespace`. -/
def isUnicodeWs (c : Char) : Bool :=
  c.toNat = 0x09 || c.toNat = 0x0A || c.toNat = 0x0B || c.toNat = 0x0C ||
  c.toNat = 0x0D || c.toNat = 0x20 || c.toNat = 0x85 || c.toNat = 0xA0 ||
  c.toNat = 0x1680 || (0x2000 ≤ c.toNat && c.toNat ≤ 0x200A) ||
  c.toNat = 0x2028 || c.toNat = 0x2029 || c.toNat = 0x202F ||
  c.toNat = 0x205F || c.toNat = 0x3000

/-- Leading and trailing Unicode whitespace removal (`str::trim`). -/
def trimUnicode (l : List Char) : List Char :=
  ((l.dropWhile isUnicodeWs).reverse.dropWhile isUnicodeWs).reverse

/-- The whitespace-collapsing fold of norm_query: the Bool is the last_space
flag; a whitespace character emits a single space unless one was just
emitted, every other character is pushed verbatim. -/
def collapseWs : List Char → Bool → List Char
  | [], _ => []
  | c :: cs, lastSpace =>
    if isUnicodeWs c then
      if lastSpace then collapseWs cs true else ' ' :: collapseWs cs true
    else c :: collapseWs cs false

/-- norm_query from src/lib.rs lines 1017-1025: trim, ASCII-lowercase, then
collapse every whitespace run to one space. -/
def norm_query (q : String) : String :=
  String.mk (collapseWs ((trimUnicode q.data).map asciiLowerChar) false)

/-- Search-cache key composed by search_manga_cached_with_sources
(src/lib.rs line 168): the literal tag is lowercase "manga". -/
def searchKey (source q : String) : String :=
  source ++ "|search|manga|" ++ norm_query q

/-- Search-cache key composed by search_anime_cached_with_sources
(src/lib.rs line 215): the literal tag is lowercase "anime". -/
def searchKeyAnime (source q : String) : String :=
  source ++ "|search|anime|" ++ norm_query q

/-- Identity persistence loop of the cached search (src/lib.rs lines
193-197): for every returned media of a source, get_or_create the series
mapping (upsert_source touches only the sources table and carries no state
the claims observe). -/
def persistResults (st : MapState) (source : String) (medias : List Media) :
    MapState :=
  medias.foldl (fun acc m => (get_or_create_series_id acc source m.id m).2) st

/-- Observable outcome of one cached search: the (source, media) pairs (or
the first propagated plugin error), the final cache, the cache keys read,
the cache writes (key, payload, expires_at), the plugin invocations
(source, query), and the identity-layer state. -/
structure SearchOut where
  results : Except String (List (String × Media))
  cache : Cache
  reads : List String
  writes : List (String × String × Int)
  calls : List (String × String)
  idmap : MapState

/-- Touring::search_manga_cached_with_sources from src/lib.rs lines 161-205,
iterating over the plugin names. Per source: unless refresh, read the cache
under the composed key and deserialize; on a miss invoke the plugin with the
RAW query (a plugin error aborts the whole search via ?), serialize and
write the cache with expires_at = now + search_ttl; in both cases upsert the
series mapping for every returned media. -/
def search_manga_go (plugin : String → String → Except String (List Media))
    (encM : List Media → String) (decM : String → Option (List Media))
    (now ttl : Int) (q : String) (refresh : Bool) :
    List String → Cache → MapState → SearchOut
  | [], cache, st => ⟨.ok [], cache, [], [], [], st⟩
  | source :: rest, cache, st =>
    let key := searchKey source q
    let readsHere := if refresh then [] else [key]
    let hit : Option (List Media) :=
      if refresh then none else (get_cache cache key now).bind decM
    match hit with
    | some medias =>
      let st1 := persistResults st source medias
      let out := search_manga_go plugin encM decM now ttl q refresh rest cache st1
      ⟨out.results.map (fun r => medias.map (fun m => (source, m)) ++ r),
       out.cache, readsHere ++ out.reads, out.writes, out.calls, out.idmap⟩
    | none =>
      match plugin source q with
      | .error e => ⟨.error e, cache, readsHere, [], [(source, q)], st⟩
      | .ok res =>
        let payload := encM res
        let cache1 := put_cache cache key payload (now + ttl)
        let st1 := persistResults st source res
        let out := search_manga_go plugin encM decM now ttl q refresh rest cache1 st1
        ⟨out.results.map (fun r => res.map (fun m => (source, m)) ++ r),
         out.cache, readsHere ++ out.reads,
         (key, payload, now + ttl) :: out.writes,
         (source, q) :: out.calls, out.idmap⟩

/-- Entry point of the cached manga search over the listed plugin names. -/
def search_manga_cached_with_sources
    (plugin : String → String → Except String (List Media))
    (encM : List Media → String) (decM : String → Option (List Media))
    (now ttl : Int) (q : String) (refresh : Bool)
    (sources : List String) (cache : Cache) (st : MapState) : SearchOut :=
  search_manga_go plugin encM decM now ttl q refresh sources cache st

/-! ## First-hit fan-out (src/plugins.rs) -/

/-- Per-slot outcome of dispatching one command, as distinguished by the
match arms of the first-hit loops: worker initialization failure, channel
send failure, Ok(Ok(Err e)) plugin call failure, Ok(Err) dropped reply
sender, Err(elapsed) timeout, or a successful reply. -/
inductive CallOutcome (α : Type) where
  | loadFailed
  | sendFailed
  | callFailed (e : String)
  | dropped
  | timedOut
  | ok (v : α)

/-- A slot together with the outcome its worker would reply with. -/
abbrev SlotRes (α : Type) : Type := String × CallOutcome α

/-- The successful non-empty filtered reply of a slot, if any. -/
def slotHit {α β : Type} (extract : α → List β) (s : SlotRes α) :
    Option (String × List β) :=
  match s.2 with
  | .ok v =>
    let f := extract v
    if f.isEmpty then none else some (s.1, f)
  | _ => none

/-- Shared shape of the first-hit loops of PluginManager
(get_manga_chapters_with_source and friends, src/plugins.rs lines 544-723):
iterate the slots in order; on a successful reply whose filtered list is
non-empty, return (Some name, list) at once; on any failure or an empty
filtered list continue; return (None, []) after the last slot. Also returns
the names of the slots that were iterated. -/
def first_hit {α β : Type} (extract : α → List β) :
    List (SlotRes α) → (Option String × List β) × List String
  | [] => ((none, []), [])
  | s :: rest =>
    match s.2 with
    | .ok v =>
      let f := extract v
      if !f.isEmpty then ((some s.1, f), [s.1])
      else
        let out := first_hit extract rest
        (out.1, s.1 :: out.2)
    | _ =>
      let out := first_hit extract rest
      (out.1, s.1 :: out.2)

/-- Chapter filter of get_manga_chapters_with_source. -/
def filterChapters (units : List UnitT) : List UnitT :=
  units.filter (fun u => u.kind == UnitKind.chapter)

/-- PluginManager::get_manga_chapters_with_source, src/plugins.rs 544-587. -/
def get_manga_chapters_with_source (slots : List (SlotRes (List UnitT))) :
    (Option String × List UnitT) × List String :=
  first_hit filterChapters slots

/-- Page/Image filter-and-project of get_chapter_images_with_source. -/
def filterPages (assets : List Asset) : List String :=
  (assets.filter
    (fun a => a.kind == AssetKind.page || a.kind == AssetKind.image)).map
    (fun a => a.url)

/-- PluginManager::get_chapter_images_with_source, src/plugins.rs 589-633. -/
def get_chapter_images_with_source (slots : List (SlotRes (List Asset))) :
    (Option String × List String) × List String :=
  first_hit filterPages slots

/-- Video filter of get_episode_streams_with_source. -/
def filterVideos (assets : List Asset) : List Asset :=
  assets.filter (fun a => a.kind == AssetKind.video)

/-- PluginManager::get_episode_streams_with_source, src/plugins.rs 680-723. -/
def get_episode_streams_with_source (slots : List (SlotRes (List Asset))) :
    (Option String × List Asset) × List String :=
  first_hit filterVideos slots

/-- Ordered insertion by slot name, the model of the final
`self.slots.sort_by(|a, b| a.name().cmp(b.name()))` of
load_plugins_from_directory (src/plugins.rs line 347). -/
def insertSlot {α : Type} (s : String × α) :
    List (String × α) → List (String × α)
  | [] => [s]
  | t :: ts => if s.1 ≤ t.1 then s :: t :: ts else t :: insertSlot s ts

/-- Name-ascending sort of the discovered slots. -/
def sortSlotsByName {α : Type} : List (String × α) → List (String × α)
  | [] => []
  | s :: ss => insertSlot s (sortSlotsByName ss)

/-- PluginManager::load_plugins_from_directory, src/plugins.rs lines
300-349, restricted to its observable effect on slot order: the accepted
slots are sorted by name for determinism. -/
def load_plugins_from_directory {α : Type} (discovered : List (String × α)) :
    List (String × α) :=
  sortSlotsByName discovered

/-! ## Chapter-image caching with dual ids (src/lib.rs) -/

/-- Chapter identity columns read by resolve_chapter_external_id. -/
structure ChapterIdRow where
  id : String
  external_id : String
deriving DecidableEq, Repr

/-- Touring::resolve_chapter_external_id from src/lib.rs lines 969-976:
SELECT external_id FROM chapters WHERE id = ? LIMIT 1, defaulting to the
input id when no row matches. -/
def resolve_chapter_external_id (chapters : List ChapterIdRow) (id : String) :
    String :=
  match chapters.find? (fun c => c.id == id) with
  | some c => c.external_id
  | none => id

/-- Observable outcome of one get_chapter_images call: the returned URL
list, the final cache, and the chapter ids the first-hit manager was
invoked with (empty on a cache hit). -/
structure ImagesOut where
  urls : List String
  cache : Cache
  queried : List String

/-- Touring::get_chapter_images_with_refresh from src/lib.rs lines 351-390.
Keys are built from the id the caller provided AND from the resolved
external id; unless refresh, the provided-id key is read first, then the
external-id key; on a miss the manager is tried with the provided id first
and the external id second, stopping at the first non-empty list; the
result is written through under both keys with expires_at = now +
pages_ttl. `manager` abstracts get_chapter_images_with_source. -/
def get_chapter_images_with_refresh (chapters : List ChapterIdRow)
    (manager : String → Option String × List String)
    (enc : List String → String) (dec : String → Option (List String))
    (cache : Cache) (now pages_ttl : Int) (chapter_id : String)
    (refresh : Bool) : ImagesOut :=
  let original_id := chapter_id
  let external_id := resolve_chapter_external_id chapters chapter_id
  let key_orig := "all|pages|" ++ original_id
  let key_ext := "all|pages|" ++ external_id
  let cachedHit : Option (List String) :=
    if refresh then none
    else
      match (get_cache cache key_orig now).bind dec with
      | some urls => some urls
      | none =>
        if key_ext ≠ key_orig then (get_cache cache key_ext now).bind dec
        else none
  match cachedHit with
  | some urls => ⟨urls, cache, []⟩
  | none =>
    let firstTry := manager original_id
    let step :=
      if !firstTry.2.isEmpty then (firstTry.2, [original_id])
      else if original_id == external_id then ([], [original_id])
      else
        let secondTry := manager external_id
        (secondTry.2, [original_id, external_id])
    let payload := enc step.1
    let expires_at := now + pages_ttl
    let cache1 := put_cache cache key_ext payload expires_at
    let cache2 :=
      if key_orig ≠ key_ext then put_cache cache1 key_orig payload expires_at
      else cache1
    ⟨step.1, cache2, step.2⟩

/-! ## Spec-side and sequencing definitions -/

/-- Apply a list of cache writes in order. -/
def applyWrites (c : Cache) (ws : List (String × String × Int)) : Cache :=
  ws.foldl (fun acc w => put_cache acc w.1 w.2.1 w.2.2) c

/-- Interpretation of a stored download_path after the COALESCE round-trip:
NULL and the empty string both read back as None. -/
def pathReadBack (path : Option String) : Option String :=
  match path with
  | some s => if s == "" then none else some s
  | none => none

/-- Allow-list acceptance in the words of the specification: the URL parses,
its scheme is http or https, it has a host, and the lowercased host either
exactly equals a non-wildcard entry or, for an entry of the form "*.X",
equals X or ends with ".X". -/
def spec_url_allowed (parse : UrlParser) (list : List String) (url : String) :
    Prop :=
  ∃ parts, parse url = some parts
    ∧ (parts.scheme = "http" ∨ parts.scheme = "https")
    ∧ ∃ h, parts.host = some h
      ∧ ∃ a ∈ list,
          (List.isPrefixOf "*.".data a.data = false ∧ asciiLower h = a)
          ∨ (List.isPrefixOf "*.".data a.data = true
             ∧ ((asciiLower h).data = a.data.drop 2
                ∨ List.isSuffixOf ('.' :: a.data.drop 2) (asciiLower h).data
                  = true))

/-- Specification-side reading of a first-hit fan-out: the first slot in
list order whose reply filters to a non-empty list wins. -/
def specFirst {α β : Type} (extract : α → List β) (slots : List (SlotRes α)) :
    Option String × List β :=
  match slots.findSome? (slotHit extract) with
  | some r => (some r.1, r.2)
  | none => (none, [])

/-- Specification-side reading of the slots a first-hit fan-out iterates:
every slot up to and including the first hit (all of them when no slot
hits). -/
def specTrace {α β : Type} (extract : α → List β) (slots : List (SlotRes α)) :
    List String :=
  (slots.map Prod.fst).take
    (slots.findIdx (fun s => (slotHit extract s).isSome) + 1)

/-- An identity-layer operation of claim C2: either a direct
get_or_create_series_id call or a whole cached search (which may run
against any cache contents and any plugin behaviour). -/
inductive AggOp where
  | goc (source_id external_id : String) (media : Media)
  | searchOp (plugin : String → String → Except String (List Media))
      (encM : List Media → String) (decM : String → Option (List Media))
      (now ttl : Int) (q : String) (refresh : Bool)
      (sources : List String) (cache : Cache)

/-- Effect of one operation on the identity-layer state. -/
def applyOp (st : MapState) : AggOp → MapState
  | .goc s e m => (get_or_create_series_id st s e m).2
  | .searchOp plugin encM decM now ttl q refresh sources cache =>
    (search_manga_go plugin encM decM now ttl q refresh sources cache st).idmap

/-- Effect of a sequence of operations. -/
def applyOps (st : MapState) (ops : List AggOp) : MapState :=
  ops.foldl applyOp st

/-- Initial identity-layer state: empty tables, fresh UUID supply. -/
def initMapState (supply : Nat → String) : MapState :=
  ⟨[], [], supply, 0⟩

/-- At-most-one mapping invariant over series_sources rows. -/
def invAtMostOne (rows : List SeriesSourceRow) : Prop :=
  ∀ s e, countPair rows s e ≤ 1

/-! ## Helper lemmas -/

theorem applyWrites_other_key (key : String) (ws : List (String × String × Int)) :
    ∀ (c : Cache), (∀ w ∈ ws, w.1 ≠ key) → applyWrites c ws key = c key := by
  induction ws with
  | nil => intro c _; rfl
  | cons w ws ih =>
    intro c h
    have hw : w.1 ≠ key := h w (by simp)
    have hrest : ∀ w' ∈ ws, w'.1 ≠ key := fun w' hw' => h w' (by simp [hw'])
    calc applyWrites (put_cache c w.1 w.2.1 w.2.2) ws key
        = put_cache c w.1 w.2.1 w.2.2 key := ih _ hrest
      _ = c key := by
        have hne : key ≠ w.1 := fun h' => hw h'.symm
        simp [put_cache, hne]

/-! ## Claim C4: cache freshness and last-writer-wins -/

/-- C4: get_cache returns None when no row exists for the key or when the
row's expires_at ≤ now; after put_cache(key, payload, expires_at), a read of
that key at any now < expires_at, with no intervening write to the key,
returns the most recently written payload; a stale payload is never
surfaced. -/
theorem claim_C4_cache_ttl :
    (∀ key now, get_cache emptyCache key now = none)
    ∧ (∀ (c : Cache) key payload e now, c key = some (payload, e) → e ≤ now →
        get_cache c key now = none)
    ∧ (∀ (c : Cache) key payload e now, now < e →
        get_cache (put_cache c key payload e) key now = some payload)
    ∧ (∀ (c : Cache) key p1 e1 p2 e2 now, now < e2 →
        get_cache (put_cache (put_cache c key p1 e1) key p2 e2) key now = some p2)
    ∧ (∀ (c : Cache) key payload e (others : List (String × String × Int)) now,
        now < e → (∀ w ∈ others, w.1 ≠ key) →
        get_cache (applyWrites (put_cache c key payload e) others) key now =
          some payload) := by
  refine ⟨fun key now => rfl, ?_, ?_, ?_, ?_⟩
  · intro c key payload e now hrow hle
    have hc : ¬ (e > now) := by omega
    simp [get_cache, hrow, hc]
  · intro c key payload e now hlt
    have hc : e > now := by omega
    simp [get_cache, put_cache, hc]
  · intro c key p1 e1 p2 e2 now hlt
    have hc : e2 > now := by omega
    simp [get_cache, put_cache, hc]
  · intro c key payload e others now hlt hothers
    have h := applyWrites_other_key key others (put_cache c key payload e) hothers
    have hc : e > now := by omega
    simp [get_cache, h, put_cache, hc]

/-- Witness for C4 at concrete inputs. -/
theorem claim_C4_cache_ttl_witness :
    get_cache (applyWrites (put_cache emptyCache "k" "v2" 10) [("j", "w", 3)])
      "k" 5 = some "v2" :=
  claim_C4_cache_ttl.2.2.2.2 emptyCache "k" "v2" 10 [("j", "w", 3)] 5
    (by decide) (by decide)

/-! ## Claim C9: series download-path preferences -/

theorem find_after_update (prefs : PrefsTable) (sid : String) (path : Option String)
    (hany : prefs.any (fun r => r.1 == sid) = true) :
    (prefs.map (fun r => if r.1 == sid then (sid, path) else r)).find?
      (fun r => r.1 == sid) = some (sid, path) := by
  induction prefs with
  | nil => simp at hany
  | cons hd tl ih =>
    by_cases h : hd.1 == sid
    · simp [h, List.find?]
    · have htl : tl.any (fun r => r.1 == sid) = true := by
        simpa [List.any_cons, h] using hany
      simpa [List.find?, h] using ih htl

theorem find_after_append (prefs : PrefsTable) (sid : String) (path : Option String)
    (hnone : prefs.any (fun r => r.1 == sid) = false) :
    (prefs ++ [(sid, path)]).find? (fun r => r.1 == sid) = some (sid, path) := by
  induction prefs with
  | nil => simp [List.find?]
  | cons hd tl ih =>
    have h : (hd.1 == sid) = false := by
      by_contra hc
      simp [List.any_cons, eq_true_of_ne_false hc] at hnone
    have htl : tl.any (fun r => r.1 == sid) = false := by
      simpa [List.any_cons, h] using hnone
    simpa [List.find?, h] using ih htl

theorem get_after_set (series : List String) (prefs prefs1 : PrefsTable)
    (sid : String) (path : Option String)
    (hset : set_series_download_path series prefs sid path = .ok prefs1) :
    get_series_download_path prefs1 sid = pathReadBack path := by
  have hmem : series.any (fun s => s == sid) = true := by
    by_contra hc
    simp [set_series_download_path, eq_false_of_ne_true hc] at hset
  rw [set_series_download_path, if_pos hmem] at hset
  have hprefs1 := Except.ok.inj hset
  subst hprefs1
  by_cases hany : prefs.any (fun r => r.1 == sid) = true
  · rw [if_pos hany]
    simp only [get_series_download_path, get_series_pref]
    rw [find_after_update prefs sid path hany]
    cases path <;> simp [pathReadBack]
  · rw [if_neg hany]
    simp only [get_series_download_path, get_series_pref]
    rw [find_after_append prefs sid path (eq_false_of_ne_true hany)]
    cases path <;> simp [pathReadBack]

/-- C9: for an existing series, setting a non-empty download path and
reading it back yields Some(path); setting Some("") or None reads back as
None; for a missing series the set fails with a NotFound-style error and
returns no table (writes no pref row). -/
theorem claim_C9_download_path :
    (∀ (series : List String) (prefs : PrefsTable) (sid p : String),
       series.any (fun s => s == sid) = true → p ≠ "" →
       ∃ prefs1, set_series_download_path series prefs sid (some p) = .ok prefs1
         ∧ get_series_download_path prefs1 sid = some p
         ∧ ∃ prefs2,
             set_series_download_path series prefs1 sid (some "") = .ok prefs2
             ∧ get_series_download_path prefs2 sid = none
             ∧ ∃ prefs3,
                 set_series_download_path series prefs2 sid none = .ok prefs3
                 ∧ get_series_download_path prefs3 sid = none)
    ∧ (∀ (series : List String) (prefs : PrefsTable) (sid : String)
         (path : Option String),
       series.any (fun s => s == sid) = false →
       set_series_download_path series prefs sid path =
         .error ("Series not found: " ++ sid)) := by
  constructor
  · intro series prefs sid p hmem hp
    have hset1 : set_series_download_path series prefs sid (some p) =
        .ok (if prefs.any (fun r => r.1 == sid) then
          prefs.map (fun r => if r.1 == sid then (sid, some p) else r)
        else prefs ++ [(sid, some p)]) := by
      rw [set_series_download_path, if_pos hmem]
    refine ⟨_, hset1, ?_, ?_⟩
    · rw [get_after_set series prefs _ sid (some p) hset1]
      simp [pathReadBack, hp]
    · set prefs1 := (if prefs.any (fun r => r.1 == sid) then
        prefs.map (fun r => if r.1 == sid then (sid, some p) else r)
      else prefs ++ [(sid, some p)]) with hdef
      have hset2 : set_series_download_path series prefs1 sid (some "") =
          .ok (if prefs1.any (fun r => r.1 == sid) then
            prefs1.map (fun r => if r.1 == sid then (sid, some "") else r)
          else prefs1 ++ [(sid, some "")]) := by
        rw [set_series_download_path, if_pos hmem]
      refine ⟨_, hset2, ?_, ?_⟩
      · rw [get_after_set series prefs1 _ sid (some "") hset2]
        simp [pathReadBack]
      · set prefs2 := (if prefs1.any (fun r => r.1 == sid) then
          prefs1.map (fun r => if r.1 == sid then (sid, some "") else r)
        else prefs1 ++ [(sid, some "")]) with hdef2
        have hset3 : set_series_download_path series prefs2 sid none =
            .ok (if prefs2.any (fun r => r.1 == sid) then
              prefs2.map (fun r => if r.1 == sid then (sid, none) else r)
            else prefs2 ++ [(sid, none)]) := by
          rw [set_series_download_path, if_pos hmem]
        refine ⟨_, hset3, ?_⟩
        rw [get_after_set series prefs2 _ sid none hset3]
        simp [pathReadBack]
  · intro series prefs sid path hmiss
    rw [set_series_download_path, if_neg (by simp [hmiss])]

/-- Witness for C9 at concrete inputs. -/
theorem claim_C9_download_path_witness :
    (∃ prefs1, set_series_download_path ["s1"] [] "s1" (some "/d") = .ok prefs1
      ∧ get_series_download_path prefs1 "s1" = some "/d"
      ∧ ∃ prefs2, set_series_download_path ["s1"] prefs1 "s1" (some "") = .ok prefs2
        ∧ get_series_download_path prefs2 "s1" = none
        ∧ ∃ prefs3, set_series_download_path ["s1"] prefs2 "s1" none = .ok prefs3
          ∧ get_series_download_path prefs3 "s1" = none)
    ∧ set_series_download_path ["s1"] [] "s2" (some "/d") =
        .error ("Series not found: " ++ "s2") :=
  ⟨claim_C9_download_path.1 ["s1"] [] "s1" "/d" (by decide) (by decide),
   claim_C9_download_path.2 ["s1"] [] "s2" (some "/d") (by decide)⟩

/-! ## Claim C8: upsert_chapter conflict resolution -/

/-- Counterexample to C8 as stated: upserting the same chapter key twice
with different upload_group values leaves the FIRST call's upload_group in
the row, because the ON CONFLICT update list of upsert_chapter omits
upload_group. The claim asserts all non-key fields, including upload_group,
equal the second call's inputs. -/
theorem claim_C8_counterexample :
    ((upsert_chapter
        (upsert_chapter []
          ⟨"id1", "sr", "src", "ext", none, none, some "t1", none, some "v1",
            none, some "g1"⟩ 5)
        ⟨"id2", "sr", "src", "ext", none, none, some "t2", none, some "v2",
          none, some "g2"⟩ 9).map
      (fun r => (r.upload_group, r.title))) = [(some "g1", some "t2")]
    ∧ (some "g1" : Option String) ≠ some "g2" := by
  constructor
  · rfl
  · decide

/-- C8 (amended): upsert_chapter is unique on (series_id, source_id,
external_id); on key conflict it updates every attribute except the
identity keys AND upload_group (which keeps its previously stored value)
and sets updated_at, so upserting the same key twice leaves exactly one row
for that key whose non-key fields other than upload_group equal the second
call's inputs, whose upload_group equals the first call's input, and whose
identity keys are unchanged. -/
theorem claim_C8_upsert_chapter (table : List ChapterRow)
    (c1 c2 : ChapterInsert) (now1 now2 : Int)
    (hnew : table.any (chapterKeyMatches c1) = false)
    (hser : c2.series_id = c1.series_id) (hsrc : c2.source_id = c1.source_id)
    (hext : c2.external_id = c1.external_id) :
    upsert_chapter (upsert_chapter table c1 now1) c2 now2 =
      table ++
        [{ id := c2.id, series_id := c1.series_id, source_id := c1.source_id,
           external_id := c1.external_id, number_text := c2.number_text,
           number_num := c2.number_num, title := c2.title, lang := c2.lang,
           volume := c2.group, published_at := c2.published_at,
           upload_group := c1.upload_group, updated_at := now2 }] := by
  have hsame : chapterKeyMatches c2 = chapterKeyMatches c1 := by
    funext r
    simp [chapterKeyMatches, hser, hsrc, hext]
  have h1 : upsert_chapter table c1 now1 = table ++ [chapterRowOfInsert c1 now1] := by
    rw [upsert_chapter, if_neg (by simp [hnew])]
  rw [h1]
  have hrow : chapterKeyMatches c2 (chapterRowOfInsert c1 now1) = true := by
    simp only [hsame, chapterKeyMatches, chapterRowOfInsert]
    simp only [Bool.and_eq_true, beq_iff_eq]
    exact ⟨⟨hser.symm, hsrc.symm⟩, hext.symm⟩
  have hany : ((table ++ [chapterRowOfInsert c1 now1]).any
      (chapterKeyMatches c2)) = true := by
    simp [List.any_append, hrow]
  rw [upsert_chapter, if_pos hany, List.map_append]
  have hforall : ∀ r ∈ table, chapterKeyMatches c2 r = false := by
    rw [hsame]
    intro r hr
    exact eq_false_of_ne_true ((List.any_eq_false.mp hnew) r hr)
  have htab : table.map
      (fun r => if chapterKeyMatches c2 r then chapterRowUpdate r c2 now2 else r) =
      table := by
    conv_rhs => rw [← List.map_id table]
    apply List.map_congr_left
    intro r hr
    simp [hforall r hr]
  rw [htab]
  simp only [List.map_cons, List.map_nil, hrow, if_pos]
  rfl

/-- Witness for the amended C8 at concrete inputs. -/
theorem claim_C8_upsert_chapter_witness :
    upsert_chapter
        (upsert_chapter []
          ⟨"ca", "s", "p", "e", none, none, some "A", none, none, none,
            some "gA"⟩ 1)
        ⟨"cb", "s", "p", "e", none, none, some "B", none, none, none,
          some "gB"⟩ 2 =
      [{ id := "cb", series_id := "s", source_id := "p", external_id := "e",
         number_text := none, number_num := none, title := some "B",
         lang := none, volume := none, published_at := none,
         upload_group := some "gA", updated_at := 2 }] :=
  claim_C8_upsert_chapter []
    ⟨"ca", "s", "p", "e", none, none, some "A", none, none, none, some "gA"⟩
    ⟨"cb", "s", "p", "e", none, none, some "B", none, none, none, some "gB"⟩
    1 2 rfl rfl rfl rfl

/-! ## Claim C10: sentinel error entries are filtered out -/

/-- C10: for every plugin whose name does not contain "mangadex_plugin",
every Media returned by fetch_media_list has id ≠ "error" and a title that
does not start with "HTTP Error:"; sentinel entries are silently dropped
rather than surfaced. -/
theorem claim_C10_sentinels_filtered (parse : UrlParser) (p : PluginM)
    (kind : MediaType) (attempts : Nat → Except String (List Media))
    (fallback : List Media) (l : List Media)
    (hname : nameMangadex p = false)
    (hres : (fetch_media_list parse p kind attempts fallback).1 = .ok l) :
    ∀ m ∈ l, m.id ≠ "error"
      ∧ List.isPrefixOf "HTTP Error:".data m.title.data = false := by
  intro m hm
  rw [fetch_media_list] at hres
  by_cases hempty : emptyAllowed p = true
  · rw [if_pos hempty] at hres
    simp only [Except.ok.injEq] at hres
    subst hres
    simp at hm
  · rw [if_neg hempty] at hres
    simp only [Except.ok.injEq] at hres
    subst hres
    obtain ⟨m0, hm0, hmap⟩ := List.mem_map.mp hm
    have hsent : sentinelOk m0 = true := by
      revert hm0
      cases hcall : (retry_once attempts "fetchmedialist").1 with
      | ok v =>
        simp only [chooseMedia]
        by_cases hfil : (v.filter sentinelOk).isEmpty = true
        · simp [hfil, hname]
        · simp only [hfil, Bool.not_false, if_pos]
          intro hmem
          exact List.of_mem_filter hmem
      | error e => simp [chooseMedia, hname]
    have hid : (nullMediaUrls (url_allowed parse p.allowed_hosts) m0).id = m0.id := rfl
    have htitle : (nullMediaUrls (url_allowed parse p.allowed_hosts) m0).title =
        m0.title := rfl
    subst hmap
    rw [hid, htitle]
    simp only [sentinelOk, Bool.and_eq_true, decide_eq_true_eq,
      Bool.not_eq_true', decide_eq_true_iff] at hsent
    exact ⟨hsent.1, hsent.2⟩

/-- Witness for C10 at concrete inputs: a non-mangadex plugin whose guest
reply mixes a sentinel entry with a genuine one. -/
theorem claim_C10_sentinels_filtered_witness :
    (⟨"m1", MediaType.manga, "T", none, none, none⟩ : Media).id ≠ "error"
    ∧ List.isPrefixOf "HTTP Error:".data
        (⟨"m1", MediaType.manga, "T", none, none, none⟩ : Media).title.data =
        false :=
  claim_C10_sentinels_filtered (fun _ => none) ⟨"p1", none⟩ MediaType.manga
    (fun _ => .ok [⟨"error", MediaType.manga, "boom", none, none, none⟩,
      ⟨"m1", MediaType.manga, "T", none, none, none⟩])
    [] [⟨"m1", MediaType.manga, "T", none, none, none⟩]
    (by decide) rfl ⟨"m1", MediaType.manga, "T", none, none, none⟩ (by simp)

/-! ## Claim C7: retry exactly once, and where the second failure goes -/

/-- Counterexample to C7 as stated: for a plugin whose name does not contain
"mangadex_plugin", a fetchMediaList whose guest invocation fails on both
attempts does NOT report the second failure to the caller — fetch_media_list
swallows it and returns Ok([]). -/
theorem claim_C7_counterexample :
    (fetch_media_list (fun _ => none) ⟨"p1", none⟩ MediaType.manga
        (fun _ => Except.error "boom") []).1 = Except.ok []
    ∧ (fetch_media_list (fun _ => none) ⟨"p1", none⟩ MediaType.manga
        (fun _ => Except.error "boom") []).1 ≠
        Except.error "fetchmedialist after retry: boom" := by
  exact ⟨rfl, by decide⟩

/-- C7 (amended): on a failed attempt the host retries exactly once (after a
200 ms sleep, not modelled); a first success is returned without a second
attempt; a second failure becomes the error "<op> after retry: <e>", which
getCapabilities reports to the caller, while fetchMediaList, fetchUnits and
fetchAssets convert it into an empty Ok result list (for a plugin without
mangadex fallback). -/
theorem claim_C7_retry_once :
    (∀ (α : Type) (att : Nat → Except String α) (op : String) (v : α),
       att 0 = .ok v → retry_once att op = (.ok v, 1))
    ∧ (∀ (α : Type) (att : Nat → Except String α) (op e : String),
       att 0 = .error e → (retry_once att op).2 = 2)
    ∧ (∀ (α : Type) (att : Nat → Except String α) (op e : String) (v : α),
       att 0 = .error e → att 1 = .ok v → (retry_once att op).1 = .ok v)
    ∧ (∀ (α : Type) (att : Nat → Except String α) (op e0 e1 : String),
       att 0 = .error e0 → att 1 = .error e1 →
       (retry_once att op).1 = .error (op ++ " after retry: " ++ e1))
    ∧ (∀ (att : Nat → Except String ProviderCapabilities)
         (old : Option ProviderCapabilities) (e0 e1 : String),
       att 0 = .error e0 → att 1 = .error e1 →
       (get_capabilities_refresh att old).1 =
         .error ("getcapabilities after retry: " ++ e1))
    ∧ (∀ (parse : UrlParser) (p : PluginM) (kind : MediaType)
         (att : Nat → Except String (List Media)) (fb : List Media)
         (e0 e1 : String),
       nameMangadex p = false → att 0 = .error e0 → att 1 = .error e1 →
       (fetch_media_list parse p kind att fb).1 = .ok [])
    ∧ (∀ (parse : UrlParser) (p : PluginM)
         (att : Nat → Except String (List UnitT)) (fb : List UnitT)
         (e0 e1 : String),
       nameMangadex p = false → att 0 = .error e0 → att 1 = .error e1 →
       (fetch_units parse p att fb).1 = .ok [])
    ∧ (∀ (parse : UrlParser) (p : PluginM)
         (att : Nat → Except String (List Asset)) (fb : List Asset)
         (e0 e1 : String),
       nameMangadex p = false → att 0 = .error e0 → att 1 = .error e1 →
       (fetch_assets parse p att fb).1 = .ok []) := by
  refine ⟨?_, ?_, ?_, ?_, ?_, ?_, ?_, ?_⟩
  · intro α att op v h0
    rw [retry_once, h0]
  · intro α att op e h0
    rw [retry_once, h0]
    cases att 1 <;> rfl
  · intro α att op e v h0 h1
    rw [retry_once, h0, h1]
  · intro α att op e0 e1 h0 h1
    rw [retry_once, h0, h1]
  · intro att old e0 e1 h0 h1
    rw [get_capabilities_refresh, retry_once, h0, h1]
    rfl
  · intro parse p kind att fb e0 e1 hname h0 h1
    rw [fetch_media_list]
    by_cases hempty : emptyAllowed p = true
    · rw [if_pos hempty]
    · rw [if_neg hempty]
      simp only [retry_once, h0, h1, chooseMedia, hname, Bool.false_and,
        if_neg, List.map_nil]
      simp
  · intro parse p att fb e0 e1 hname h0 h1
    rw [fetch_units]
    by_cases hempty : emptyAllowed p = true
    · rw [if_pos hempty]
    · rw [if_neg hempty]
      simp only [retry_once, h0, h1, chooseUnits, hname, if_neg, List.map_nil]
      simp
  · intro parse p att fb e0 e1 hname h0 h1
    rw [fetch_assets]
    by_cases hempty : emptyAllowed p = true
    · rw [if_pos hempty]
    · rw [if_neg hempty]
      simp only [retry_once, h0, h1, chooseAssets, hname, if_neg,
        List.filter_nil]
      simp

/-- Witness for the amended C7 at concrete inputs. -/
theorem claim_C7_retry_once_witness :
    retry_once (fun _ => (Except.error "b" : Except String Nat)) "op" =
      (.error ("op" ++ " after retry: " ++ "b"), 2)
    ∧ (fetch_media_list (fun _ => none) ⟨"q1", none⟩ MediaType.anime
        (fun _ => Except.error "b") []).1 = .ok [] := by
  constructor
  · have h1 := claim_C7_retry_once.2.2.2.1 Nat
      (fun _ => (Except.error "b" : Except String Nat)) "op" "b" "b" rfl rfl
    have h2 := claim_C7_retry_once.2.1 Nat
      (fun _ => (Except.error "b" : Except String Nat)) "op" "b" rfl
    exact Prod.ext h1 h2
  · exact claim_C7_retry_once.2.2.2.2.2.1 (fun _ => none) ⟨"q1", none⟩
      MediaType.anime (fun _ => Except.error "b") [] "b" "b" (by decide) rfl rfl

/-! ## Claim C1: allow-list semantics -/

theorem entryMatches_iff (host a : String) :
    entryMatches host a = true ↔
      ((List.isPrefixOf "*.".data a.data = false ∧ host = a)
       ∨ (List.isPrefixOf "*.".data a.data = true
          ∧ (host.data = a.data.drop 2
             ∨ List.isSuffixOf ('.' :: a.data.drop 2) host.data = true))) := by
  rw [entryMatches]
  by_cases hp : List.isPrefixOf "*.".data a.data = true
  · simp [hp]
  · have hp' : List.isPrefixOf "*.".data a.data = false := eq_false_of_ne_true hp
    simp [hp', String.ext_iff]

theorem url_allowed_some_iff (parse : UrlParser) (list : List String)
    (u : String) (hne : list ≠ []) :
    (url_allowed parse (some list) u = true ↔ spec_url_allowed parse list u) := by
  have hne' : list.isEmpty = false := by
    cases list with
    | nil => exact absurd rfl hne
    | cons a l => rfl
  simp only [url_allowed, hne', Bool.false_eq_true, if_false]
  cases hp : parse u with
  | none => simp [spec_url_allowed, hp]
  | some parsed =>
    dsimp only
    by_cases hs : parsed.scheme = "http" ∨ parsed.scheme = "https"
    · rw [if_pos hs]
      cases hh : parsed.host with
      | none => simp [spec_url_allowed, hp, hh]
      | some h =>
        dsimp only
        rw [List.any_eq_true]
        constructor
        · rintro ⟨a, ha, hm⟩
          exact ⟨parsed, hp, hs, h, hh, a, ha,
            (entryMatches_iff (asciiLower h) a).mp hm⟩
        · rintro ⟨parts, hparts, hsch, h2, hh2, a, ha, hcond⟩
          rw [hp] at hparts
          cases Option.some.inj hparts
          rw [hh] at hh2
          cases Option.some.inj hh2
          exact ⟨a, ha, (entryMatches_iff (asciiLower h) a).mpr hcond⟩
    · rw [if_neg hs]
      simp only [Bool.false_eq_true, false_iff, spec_url_allowed, hp,
        Option.some.injEq]
      rintro ⟨parts, hparts, hsch, -⟩
      cases hparts
      exact hs hsch

theorem nullMediaUrls_url (ua : String → Bool) (m0 : Media) (u : String)
    (h : (nullMediaUrls ua m0).url = some u) : ua u = true := by
  simp only [nullMediaUrls] at h
  cases hu : m0.url with
  | none => rw [hu] at h; simp at h
  | some u0 =>
    rw [hu] at h
    dsimp only at h
    by_cases hb : ua u0 = true
    · rw [if_pos hb] at h
      cases h
      exact hb
    · rw [if_neg hb] at h
      simp at h

theorem nullMediaUrls_cover (ua : String → Bool) (m0 : Media) (u : String)
    (h : (nullMediaUrls ua m0).cover_url = some u) : ua u = true := by
  simp only [nullMediaUrls] at h
  cases hu : m0.cover_url with
  | none => rw [hu] at h; simp at h
  | some u0 =>
    rw [hu] at h
    dsimp only at h
    by_cases hb : ua u0 = true
    · rw [if_pos hb] at h
      cases h
      exact hb
    · rw [if_neg hb] at h
      simp at h

theorem nullUnitUrl_url (ua : String → Bool) (u0 : UnitT) (uu : String)
    (h : (nullUnitUrl ua u0).url = some uu) : ua uu = true := by
  simp only [nullUnitUrl] at h
  cases hu : u0.url with
  | none => rw [hu] at h; simp at h
  | some v =>
    rw [hu] at h
    dsimp only at h
    by_cases hb : ua v = true
    · rw [if_pos hb] at h
      cases h
      exact hb
    · rw [if_neg hb] at h
      simp at h

/-- C1: with allowed_hosts unset nothing is filtered; with an empty
allow-list every fetch operation returns the empty list without entering
the sandbox; otherwise a URL is allowed iff its scheme is http/https, it
has a parseable host, and the lowercased host matches an entry literally or
by "*.X" apex/subdomain matching; disallowed URLs are nulled out on
Media/Unit fields, and an Asset with a disallowed URL is dropped whole. -/
theorem claim_C1_allow_list (parse : UrlParser) (p : PluginM)
    (kind : MediaType) (attM : Nat → Except String (List Media))
    (fbM : List Media) (attU : Nat → Except String (List UnitT))
    (fbU : List UnitT) (attA : Nat → Except String (List Asset))
    (fbA : List Asset) :
    (∀ u, url_allowed parse none u = true)
    ∧ (p.allowed_hosts = some [] →
        fetch_media_list parse p kind attM fbM = (.ok [], false)
        ∧ fetch_units parse p attU fbU = (.ok [], false)
        ∧ fetch_assets parse p attA fbA = (.ok [], false))
    ∧ (∀ (list : List String) (u : String), list ≠ [] →
        (url_allowed parse (some list) u = true ↔ spec_url_allowed parse list u))
    ∧ (∀ l, (fetch_media_list parse p kind attM fbM).1 = .ok l →
        l = (chooseMedia p kind (retry_once attM "fetchmedialist").1 fbM).map
              (nullMediaUrls (url_allowed parse p.allowed_hosts)) ∨ l = [])
    ∧ (∀ l m, (fetch_media_list parse p kind attM fbM).1 = .ok l → m ∈ l →
        (∀ u, m.url = some u → url_allowed parse p.allowed_hosts u = true)
        ∧ (∀ u, m.cover_url = some u →
            url_allowed parse p.allowed_hosts u = true))
    ∧ (∀ l u, (fetch_units parse p attU fbU).1 = .ok l → u ∈ l →
        ∀ uu, u.url = some uu → url_allowed parse p.allowed_hosts uu = true)
    ∧ (∀ l, (fetch_assets parse p attA fbA).1 = .ok l →
        (∀ a ∈ l, url_allowed parse p.allowed_hosts a.url = true)
        ∧ (l = (chooseAssets p (retry_once attA "fetchassets").1 fbA).filter
              (fun a => url_allowed parse p.allowed_hosts a.url) ∨ l = [])) := by
  refine ⟨fun u => rfl, ?_, ?_, ?_, ?_, ?_, ?_⟩
  · intro hsome
    have hempty : emptyAllowed p = true := by rw [emptyAllowed, hsome]
    refine ⟨?_, ?_, ?_⟩
    · rw [fetch_media_list, if_pos hempty]
    · rw [fetch_units, if_pos hempty]
    · rw [fetch_assets, if_pos hempty]
  · intro list u hne
    exact url_allowed_some_iff parse list u hne
  · intro l hres
    rw [fetch_media_list] at hres
    by_cases hempty : emptyAllowed p = true
    · rw [if_pos hempty] at hres
      exact Or.inr (Except.ok.inj hres).symm
    · rw [if_neg hempty] at hres
      exact Or.inl (Except.ok.inj hres).symm
  · intro l m hres hm
    rw [fetch_media_list] at hres
    by_cases hempty : emptyAllowed p = true
    · rw [if_pos hempty] at hres
      cases Except.ok.inj hres
      simp at hm
    · rw [if_neg hempty] at hres
      cases Except.ok.inj hres
      obtain ⟨m0, _, hmap⟩ := List.mem_map.mp hm
      subst hmap
      exact ⟨nullMediaUrls_url _ m0, nullMediaUrls_cover _ m0⟩
  · intro l u hres hu uu huu
    rw [fetch_units] at hres
    by_cases hempty : emptyAllowed p = true
    · rw [if_pos hempty] at hres
      cases Except.ok.inj hres
      simp at hu
    · rw [if_neg hempty] at hres
      cases Except.ok.inj hres
      obtain ⟨u0, _, hmap⟩ := List.mem_map.mp hu
      subst hmap
      exact nullUnitUrl_url _ u0 uu huu
  · intro l hres
    rw [fetch_assets] at hres
    by_cases hempty : emptyAllowed p = true
    · rw [if_pos hempty] at hres
      cases Except.ok.inj hres
      exact ⟨by simp, Or.inr rfl⟩
    · rw [if_neg hempty] at hres
      cases Except.ok.inj hres
      refine ⟨?_, Or.inl rfl⟩
      intro a ha
      exact (List.mem_filter.mp ha).2

/-- Witness for C1 at concrete inputs: a muted plugin, and the allow-list
characterization at a wildcard entry. -/
theorem claim_C1_allow_list_witness :
    fetch_media_list (fun _ => some ⟨"https", some "a.example.com"⟩)
        ⟨"p2", some []⟩ MediaType.manga (fun _ => .ok []) [] = (.ok [], false)
    ∧ (url_allowed (fun _ => some ⟨"https", some "a.example.com"⟩)
          (some ["*.example.com"]) "u" = true ↔
        spec_url_allowed (fun _ => some ⟨"https", some "a.example.com"⟩)
          ["*.example.com"] "u") :=
  ⟨((claim_C1_allow_list (fun _ => some ⟨"https", some "a.example.com"⟩)
      ⟨"p2", some []⟩ MediaType.manga (fun _ => .ok []) [] (fun _ => .ok []) []
      (fun _ => .ok []) []).2.1 rfl).1,
   (claim_C1_allow_list (fun _ => some ⟨"https", some "a.example.com"⟩)
      ⟨"p2", some []⟩ MediaType.manga (fun _ => .ok []) [] (fun _ => .ok []) []
      (fun _ => .ok []) []).2.2.1 ["*.example.com"] "u" (by decide)⟩

/-! ## Claim C5: first-hit fan-out in ascending name order -/

theorem first_hit_spec_fail {α β : Type} (extract : α → List β) (name : String)
    (rest : List (SlotRes α)) (outc : CallOutcome α)
    (hhit : slotHit extract (name, outc) = none)
    (hstep : first_hit extract ((name, outc) :: rest) =
      ((first_hit extract rest).1, name :: (first_hit extract rest).2))
    (ih : (first_hit extract rest).1 = specFirst extract rest
      ∧ (first_hit extract rest).2 = specTrace extract rest) :
    (first_hit extract ((name, outc) :: rest)).1 =
      specFirst extract ((name, outc) :: rest)
    ∧ (first_hit extract ((name, outc) :: rest)).2 =
      specTrace extract ((name, outc) :: rest) := by
  rw [hstep]
  constructor
  · rw [ih.1]
    simp [specFirst, List.findSome?_cons, hhit]
  · rw [ih.2]
    simp [specTrace, List.findIdx_cons, hhit, List.take_succ_cons]

theorem first_hit_spec {α β : Type} (extract : α → List β)
    (slots : List (SlotRes α)) :
    (first_hit extract slots).1 = specFirst extract slots
    ∧ (first_hit extract slots).2 = specTrace extract slots := by
  induction slots with
  | nil => exact ⟨rfl, rfl⟩
  | cons s rest ih =>
    obtain ⟨name, outc⟩ := s
    cases outc with
    | ok v =>
      by_cases hf : (extract v).isEmpty = true
      · have hhit : slotHit extract (name, CallOutcome.ok v) = none := by
          simp [slotHit, hf]
        have hstep : first_hit extract ((name, CallOutcome.ok v) :: rest) =
            ((first_hit extract rest).1, name :: (first_hit extract rest).2) := by
          simp [first_hit, hf]
        exact first_hit_spec_fail extract name rest _ hhit hstep ih
      · have hf' : (extract v).isEmpty = false := eq_false_of_ne_true hf
        have hhit : slotHit extract (name, CallOutcome.ok v) =
            some (name, extract v) := by
          simp [slotHit, hf']
        have hstep : first_hit extract ((name, CallOutcome.ok v) :: rest) =
            ((some name, extract v), [name]) := by
          simp [first_hit, hf']
        rw [hstep]
        constructor
        · simp [specFirst, List.findSome?_cons, hhit]
        · simp [specTrace, List.findIdx_cons, hhit]
    | loadFailed => exact first_hit_spec_fail extract name rest _ rfl rfl ih
    | sendFailed => exact first_hit_spec_fail extract name rest _ rfl rfl ih
    | callFailed e => exact first_hit_spec_fail extract name rest _ rfl rfl ih
    | dropped => exact first_hit_spec_fail extract name rest _ rfl rfl ih
    | timedOut => exact first_hit_spec_fail extract name rest _ rfl rfl ih

theorem mem_insertSlot {α : Type} (s x : String × α) (l : List (String × α)) :
    x ∈ insertSlot s l ↔ x = s ∨ x ∈ l := by
  induction l with
  | nil => simp [insertSlot]
  | cons t ts ih =>
    rw [insertSlot]
    by_cases h : s.1 ≤ t.1
    · simp [h]
    · rw [if_neg h]
      simp only [List.mem_cons, ih]
      tauto

theorem pairwise_insertSlot {α : Type} (s : String × α) (l : List (String × α))
    (hl : l.Pairwise (fun a b => a.1 ≤ b.1)) :
    (insertSlot s l).Pairwise (fun a b => a.1 ≤ b.1) := by
  induction l with
  | nil => simp [insertSlot]
  | cons t ts ih =>
    rw [insertSlot]
    obtain ⟨ht, hts⟩ := List.pairwise_cons.mp hl
    by_cases h : s.1 ≤ t.1
    · rw [if_pos h]
      refine List.Pairwise.cons ?_ hl
      intro x hx
      rcases List.mem_cons.mp hx with rfl | hx
      · exact h
      · exact le_trans h (ht x hx)
    · rw [if_neg h]
      refine List.Pairwise.cons ?_ (ih hts)
      intro x hx
      rcases (mem_insertSlot s x ts).mp hx with rfl | hx
      · exact le_of_not_le h
      · exact ht x hx

theorem sorted_sortSlotsByName {α : Type} (l : List (String × α)) :
    (sortSlotsByName l).Pairwise (fun a b => a.1 ≤ b.1) := by
  induction l with
  | nil => exact List.Pairwise.nil
  | cons s ss ih => exact pairwise_insertSlot s _ ih

theorem sorted_load_names {α : Type} (l : List (String × α)) :
    List.Sorted (· ≤ ·) ((load_plugins_from_directory l).map Prod.fst) :=
  List.pairwise_map.mpr (sorted_sortSlotsByName l)

/-- C5: load_plugins_from_directory leaves the slots in ascending name
order; each first-hit operation (chapters, chapter images, episode streams)
iterated over those slots returns (Some name, filtered results) for the
FIRST slot in list order whose filtered reply is non-empty (specFirst), it
iterates exactly the slots up to and including that hit (specTrace, so no
later plugin is queried), per-slot failures merely continue the iteration,
and (None, []) is returned only when every slot failed or filtered to
empty. -/
theorem claim_C5_first_hit (d : List (String × CallOutcome (List UnitT)))
    (dA : List (String × CallOutcome (List Asset))) :
    List.Sorted (· ≤ ·) ((load_plugins_from_directory d).map Prod.fst)
    ∧ List.Sorted (· ≤ ·) ((load_plugins_from_directory dA).map Prod.fst)
    ∧ ((get_manga_chapters_with_source (load_plugins_from_directory d)).1 =
          specFirst filterChapters (load_plugins_from_directory d)
        ∧ (get_manga_chapters_with_source (load_plugins_from_directory d)).2 =
          specTrace filterChapters (load_plugins_from_directory d))
    ∧ ((get_chapter_images_with_source (load_plugins_from_directory dA)).1 =
          specFirst filterPages (load_plugins_from_directory dA)
        ∧ (get_chapter_images_with_source (load_plugins_from_directory dA)).2 =
          specTrace filterPages (load_plugins_from_directory dA))
    ∧ ((get_episode_streams_with_source (load_plugins_from_directory dA)).1 =
          specFirst filterVideos (load_plugins_from_directory dA)
        ∧ (get_episode_streams_with_source (load_plugins_from_directory dA)).2 =
          specTrace filterVideos (load_plugins_from_directory dA)) :=
  ⟨sorted_load_names d, sorted_load_names dA,
   first_hit_spec filterChapters (load_plugins_from_directory d),
   first_hit_spec filterPages (load_plugins_from_directory dA),
   first_hit_spec filterVideos (load_plugins_from_directory dA)⟩

/-! ## Claim C2: at most one series mapping per (source, external) pair -/

theorem find_series_id_none_iff (rows : List SeriesSourceRow) (s e : String) :
    find_series_id_by_source_external rows s e = none ↔
      rows.find? (fun r => r.source_id == s && r.external_id == e) = none := by
  rw [find_series_id_by_source_external]
  cases rows.find? (fun r => r.source_id == s && r.external_id == e) <;> simp

theorem find_none_countPair {rows : List SeriesSourceRow} {s e : String}
    (h : find_series_id_by_source_external rows s e = none) :
    countPair rows s e = 0 := by
  rw [countPair, List.countP_eq_zero]
  intro r hr
  exact List.find?_eq_none.mp ((find_series_id_none_iff rows s e).mp h) r hr

theorem find_some_countPair {rows : List SeriesSourceRow} {s e sid : String}
    (h : find_series_id_by_source_external rows s e = some sid) :
    1 ≤ countPair rows s e := by
  cases hf : rows.find? (fun r => r.source_id == s && r.external_id == e) with
  | none => rw [find_series_id_by_source_external, hf] at h; simp at h
  | some r =>
    have hr := List.mem_of_find?_eq_some hf
    have hp := List.find?_some hf
    rw [countPair]
    have hpos : 0 < rows.countP
        (fun r => r.source_id == s && r.external_id == e) :=
      List.countP_pos_iff.mpr ⟨r, hr, hp⟩
    omega

theorem goc_state_found (st : MapState) (s e : String) (m : Media)
    (sid : String)
    (hf : find_series_id_by_source_external st.rows s e = some sid) :
    get_or_create_series_id st s e m = (sid, st) := by
  unfold get_or_create_series_id
  rw [hf]

theorem goc_rows_new (st : MapState) (s e : String) (m : Media)
    (hf : find_series_id_by_source_external st.rows s e = none) :
    ((get_or_create_series_id st s e m).2).rows =
      st.rows ++ [⟨st.supply st.counter, s, e⟩]
    ∧ (get_or_create_series_id st s e m).1 = st.supply st.counter := by
  unfold get_or_create_series_id
  rw [hf]
  dsimp only
  refine ⟨?_, rfl⟩
  rw [upsert_series_source, if_neg]
  simp only [List.any_eq_true, not_exists, not_and]
  intro r hr hbeq
  have hreq : r = ⟨st.supply st.counter, s, e⟩ := by simpa using hbeq
  have hp := List.find?_eq_none.mp
    ((find_series_id_none_iff st.rows s e).mp hf) r hr
  rw [hreq] at hp
  simp at hp

theorem countP_pair_single (sid s e s2 e2 : String) :
    List.countP (fun r => r.source_id == s2 && r.external_id == e2)
      [(⟨sid, s, e⟩ : SeriesSourceRow)] = if s = s2 ∧ e = e2 then 1 else 0 := by
  simp only [List.countP_cons, List.countP_nil]
  by_cases h : s = s2 ∧ e = e2
  · simp [h.1, h.2]
  · rw [if_neg h]
    have hfalse : ((⟨sid, s, e⟩ : SeriesSourceRow).source_id == s2 &&
        (⟨sid, s, e⟩ : SeriesSourceRow).external_id == e2) = false := by
      simp only [Bool.and_eq_false_iff, beq_eq_false_iff_ne]
      by_cases h1 : s = s2
      · right
        intro h2
        exact h ⟨h1, h2⟩
      · exact Or.inl h1
    rw [hfalse]
    simp

theorem goc_inv (st : MapState) (s e : String) (m : Media)
    (h : invAtMostOne st.rows) :
    invAtMostOne ((get_or_create_series_id st s e m).2).rows := by
  intro s2 e2
  cases hf : find_series_id_by_source_external st.rows s e with
  | some sid =>
    rw [goc_state_found st s e m sid hf]
    exact h s2 e2
  | none =>
    rw [(goc_rows_new st s e m hf).1, countPair, List.countP_append,
      ← countPair, countP_pair_single]
    by_cases hpair : s = s2 ∧ e = e2
    · rw [if_pos hpair]
      have hz : countPair st.rows s2 e2 = 0 := by
        rw [← hpair.1, ← hpair.2]
        exact find_none_countPair hf
      omega
    · rw [if_neg hpair]
      have := h s2 e2
      omega

theorem goc_count_same (st : MapState) (s e : String) (m : Media)
    (hle : countPair st.rows s e ≤ 1) :
    countPair ((get_or_create_series_id st s e m).2).rows s e = 1 := by
  cases hf : find_series_id_by_source_external st.rows s e with
  | some sid =>
    rw [goc_state_found st s e m sid hf]
    show countPair st.rows s e = 1
    have := find_some_countPair hf
    omega
  | none =>
    rw [(goc_rows_new st s e m hf).1, countPair, List.countP_append,
      ← countPair, countP_pair_single, if_pos ⟨rfl, rfl⟩,
      find_none_countPair hf]

theorem goc_count_one (st : MapState) (s e : String) (m : Media)
    (s2 e2 : String) (h : countPair st.rows s2 e2 = 1) :
    countPair ((get_or_create_series_id st s e m).2).rows s2 e2 = 1 := by
  cases hf : find_series_id_by_source_external st.rows s e with
  | some sid =>
    rw [goc_state_found st s e m sid hf]
    exact h
  | none =>
    rw [(goc_rows_new st s e m hf).1, countPair, List.countP_append,
      ← countPair, countP_pair_single]
    by_cases hpair : s = s2 ∧ e = e2
    · exfalso
      have hz := find_none_countPair hf
      rw [hpair.1, hpair.2] at hz
      omega
    · rw [if_neg hpair]
      omega

theorem persist_cons (st : MapState) (source : String) (m : Media)
    (ms : List Media) :
    persistResults st source (m :: ms) =
      persistResults (get_or_create_series_id st source m.id m).2 source ms := by
  rfl

theorem persist_inv (source : String) (medias : List Media) :
    ∀ (st : MapState), invAtMostOne st.rows →
      invAtMostOne (persistResults st source medias).rows := by
  induction medias with
  | nil => intro st h; exact h
  | cons m ms ih =>
    intro st h
    rw [persist_cons]
    exact ih _ (goc_inv st source m.id m h)

theorem persist_count_one (source : String) (medias : List Media)
    (s2 e2 : String) :
    ∀ (st : MapState), countPair st.rows s2 e2 = 1 →
      countPair (persistResults st source medias).rows s2 e2 = 1 := by
  induction medias with
  | nil => intro st h; exact h
  | cons m ms ih =>
    intro st h
    rw [persist_cons]
    exact ih _ (goc_count_one st source m.id m s2 e2 h)

theorem persist_hit (source : String) (medias : List Media) (m : Media) :
    ∀ (st : MapState), invAtMostOne st.rows → m ∈ medias →
      countPair (persistResults st source medias).rows source m.id = 1 := by
  induction medias with
  | nil => intro st _ hm; cases hm
  | cons x xs ih =>
    intro st hinv hm
    rw [persist_cons]
    rcases List.mem_cons.mp hm with rfl | hm'
    · exact persist_count_one source xs source m.id _
        (goc_count_same st source m.id m (hinv source m.id))
    · exact ih _ (goc_inv st source x.id x hinv) hm'

theorem except_map_ok {α β : Type} (f : α → β) (x : Except String α) (y : β)
    (h : x.map f = .ok y) : ∃ z, x = .ok z ∧ y = f z := by
  cases x with
  | ok z =>
    refine ⟨z, rfl, ?_⟩
    simp only [Except.map] at h
    exact (Except.ok.inj h).symm
  | error e => simp [Except.map] at h

theorem search_inv (plugin : String → String → Except String (List Media))
    (encM : List Media → String) (decM : String → Option (List Media))
    (now ttl : Int) (q : String) (refresh : Bool) (sources : List String) :
    ∀ (cache : Cache) (st : MapState), invAtMostOne st.rows →
      invAtMostOne (search_manga_go plugin encM decM now ttl q refresh
        sources cache st).idmap.rows := by
  induction sources with
  | nil => intro cache st h; exact h
  | cons source rest ih =>
    intro cache st h
    simp only [search_manga_go]
    cases hhit : (if refresh then none
        else (get_cache cache (searchKey source q) now).bind decM) with
    | some medias =>
      dsimp only
      exact ih cache _ (persist_inv source medias st h)
    | none =>
      dsimp only
      cases hcall : plugin source q with
      | error e => exact h
      | ok res =>
        dsimp only
        exact ih _ _ (persist_inv source res st h)

theorem search_count_one (plugin : String → String → Except String (List Media))
    (encM : List Media → String) (decM : String → Option (List Media))
    (now ttl : Int) (q : String) (refresh : Bool) (sources : List String) :
    ∀ (cache : Cache) (st : MapState) (s2 e2 : String),
      countPair st.rows s2 e2 = 1 →
      countPair (search_manga_go plugin encM decM now ttl q refresh
        sources cache st).idmap.rows s2 e2 = 1 := by
  induction sources with
  | nil => intro cache st s2 e2 h; exact h
  | cons source rest ih =>
    intro cache st s2 e2 h
    simp only [search_manga_go]
    cases hhit : (if refresh then none
        else (get_cache cache (searchKey source q) now).bind decM) with
    | some medias =>
      dsimp only
      exact ih cache _ s2 e2 (persist_count_one source medias s2 e2 st h)
    | none =>
      dsimp only
      cases hcall : plugin source q with
      | error e => exact h
      | ok res =>
        dsimp only
        exact ih _ _ s2 e2 (persist_count_one source res s2 e2 st h)

theorem search_results_hit
    (plugin : String → String → Except String (List Media))
    (encM : List Media → String) (decM : String → Option (List Media))
    (now ttl : Int) (q : String) (refresh : Bool) (sources : List String) :
    ∀ (cache : Cache) (st : MapState) (lst : List (String × Media))
      (s : String) (m : Media),
      invAtMostOne st.rows →
      (search_manga_go plugin encM decM now ttl q refresh sources cache
        st).results = .ok lst →
      (s, m) ∈ lst →
      countPair (search_manga_go plugin encM decM now ttl q refresh sources
        cache st).idmap.rows s m.id = 1 := by
  induction sources with
  | nil =>
    intro cache st lst s m _ hres hmem
    cases Except.ok.inj hres
    cases hmem
  | cons source rest ih =>
    intro cache st lst s m hinv hres hmem
    simp only [search_manga_go] at hres ⊢
    cases hhit : (if refresh then none
        else (get_cache cache (searchKey source q) now).bind decM) with
    | some medias =>
      rw [hhit] at hres
      dsimp only at hres ⊢
      obtain ⟨lst2, hok, hlst⟩ := except_map_ok _ _ _ hres
      subst hlst
      rcases List.mem_append.mp hmem with hmem1 | hmem2
      · obtain ⟨m0, hm0, heq⟩ := List.mem_map.mp hmem1
        obtain ⟨rfl, rfl⟩ := Prod.mk.inj heq
        exact search_count_one plugin encM decM now ttl q refresh rest cache _
          _ _ (persist_hit source medias m0 st hinv hm0)
      · exact ih cache _ lst2 s m (persist_inv source medias st hinv) hok hmem2
    | none =>
      rw [hhit] at hres
      dsimp only at hres ⊢
      cases hcall : plugin source q with
      | error e =>
        rw [hcall] at hres
        dsimp only at hres
        cases hres
      | ok res =>
        rw [hcall] at hres
        dsimp only at hres ⊢
        obtain ⟨lst2, hok, hlst⟩ := except_map_ok _ _ _ hres
        subst hlst
        rcases List.mem_append.mp hmem with hmem1 | hmem2
        · obtain ⟨m0, hm0, heq⟩ := List.mem_map.mp hmem1
          obtain ⟨rfl, rfl⟩ := Prod.mk.inj heq
          exact search_count_one plugin encM decM now ttl q refresh rest _ _
            _ _ (persist_hit source res m0 st hinv hm0)
        · exact ih _ _ lst2 s m (persist_inv source res st hinv) hok hmem2

theorem applyOps_cons (st : MapState) (op : AggOp) (ops : List AggOp) :
    applyOps st (op :: ops) = applyOps (applyOp st op) ops := rfl

theorem applyOp_inv (st : MapState) (op : AggOp)
    (h : invAtMostOne st.rows) : invAtMostOne (applyOp st op).rows := by
  cases op with
  | goc s e m => exact goc_inv st s e m h
  | searchOp plugin encM decM now ttl q refresh sources cache =>
    exact search_inv plugin encM decM now ttl q refresh sources cache st h

theorem applyOps_inv (ops : List AggOp) :
    ∀ (st : MapState), invAtMostOne st.rows →
      invAtMostOne (applyOps st ops).rows := by
  induction ops with
  | nil => intro st h; exact h
  | cons op rest ih =>
    intro st h
    rw [applyOps_cons]
    exact ih _ (applyOp_inv st op h)

/-- C2: starting from an empty store, every sequence of
get_or_create_series_id calls and cached searches leaves at most one
series_id mapped to each (source_id, external_id) pair; a successful search
whose results contain the pair leaves exactly one mapping; and on the
create path the series id is the freshly drawn local UUID, never the
external_id itself (as long as the UUID generator does not emit the
external id). -/
theorem claim_C2_identity_mapping :
    (∀ (supply : Nat → String) (ops : List AggOp) (s e : String),
       countPair (applyOps (initMapState supply) ops).rows s e ≤ 1)
    ∧ (∀ (plugin : String → String → Except String (List Media))
         (encM : List Media → String) (decM : String → Option (List Media))
         (now ttl : Int) (q : String) (refresh : Bool)
         (sources : List String) (cache : Cache) (st : MapState)
         (lst : List (String × Media)) (s : String) (m : Media),
        invAtMostOne st.rows →
        (search_manga_go plugin encM decM now ttl q refresh sources cache
          st).results = .ok lst →
        (s, m) ∈ lst →
        countPair (search_manga_go plugin encM decM now ttl q refresh sources
          cache st).idmap.rows s m.id = 1)
    ∧ (∀ (st : MapState) (s e : String) (m : Media),
        find_series_id_by_source_external st.rows s e = none →
        (get_or_create_series_id st s e m).1 = st.supply st.counter)
    ∧ (∀ (st : MapState) (s e : String) (m : Media),
        find_series_id_by_source_external st.rows s e = none →
        st.supply st.counter ≠ e →
        (get_or_create_series_id st s e m).1 ≠ e) := by
  refine ⟨?_, ?_, ?_, ?_⟩
  · intro supply ops s e
    have hinit : invAtMostOne (initMapState supply).rows := by
      intro s2 e2
      simp [initMapState, countPair]
    exact applyOps_inv ops (initMapState supply) hinit s e
  · intro plugin encM decM now ttl q refresh sources cache st lst s m hinv
      hres hmem
    exact search_results_hit plugin encM decM now ttl q refresh sources cache
      st lst s m hinv hres hmem
  · intro st s e m hf
    exact (goc_rows_new st s e m hf).2
  · intro st s e m hf hne
    rw [(goc_rows_new st s e m hf).2]
    exact hne

/-- Witness for C2 at concrete inputs: one successful search containing the
pair ("p1", "eA") leaves exactly one mapping, and the create path hands out
the generated UUID, not the external id. -/
theorem claim_C2_identity_mapping_witness :
    countPair (search_manga_go
        (fun _ _ => Except.ok [⟨"eA", MediaType.manga, "T", none, none, none⟩])
        (fun _ => "[]") (fun _ => none) 0 10 "q" false ["p1"] emptyCache
        (initMapState (fun _ => "u0"))).idmap.rows "p1" "eA" = 1
    ∧ (get_or_create_series_id (initMapState (fun _ => "u0")) "p1" "eA"
        ⟨"eA", MediaType.manga, "T", none, none, none⟩).1 ≠ "eA" :=
  ⟨claim_C2_identity_mapping.2.1
      (fun _ _ => Except.ok [⟨"eA", MediaType.manga, "T", none, none, none⟩])
      (fun _ => "[]") (fun _ => none) 0 10 "q" false ["p1"] emptyCache
      (initMapState (fun _ => "u0"))
      [("p1", ⟨"eA", MediaType.manga, "T", none, none, none⟩)] "p1"
      ⟨"eA", MediaType.manga, "T", none, none, none⟩
      (fun s2 e2 => by simp [initMapState, countPair]) rfl (by simp),
   claim_C2_identity_mapping.2.2.2 (initMapState (fun _ => "u0")) "p1" "eA"
      ⟨"eA", MediaType.manga, "T", none, none, none⟩ rfl (by decide)⟩

/-! ## Claim C3: the search cache key -/

/-- Counterexample to C3 as stated: the manga search composes its cache key
with the lowercase literal tag "manga", not the key-grammar spelling
"Manga". With raw query "  The Summer  " on plugin "p1" the key actually
read is "p1|search|manga|the summer". -/
theorem claim_C3_counterexample :
    (search_manga_go (fun _ _ => Except.ok []) (fun _ => "[]") (fun _ => none)
        0 3600 "  The Summer  " false ["p1"] emptyCache
        (initMapState (fun _ => "u0"))).reads
      = ["p1|search|manga|the summer"]
    ∧ ("p1|search|manga|the summer" : String) ≠
        "p1|search|Manga|the summer" := by
  constructor
  · decide
  · decide

theorem search_trace_spec
    (plugin : String → String → Except String (List Media))
    (encM : List Media → String) (decM : String → Option (List Media))
    (now ttl : Int) (q : String) (refresh : Bool) (sources : List String) :
    ∀ (cache : Cache) (st : MapState),
    (∀ k ∈ (search_manga_go plugin encM decM now ttl q refresh sources cache
        st).reads, ∃ s ∈ sources, k = searchKey s q)
    ∧ (∀ w ∈ (search_manga_go plugin encM decM now ttl q refresh sources
        cache st).writes,
        (∃ s ∈ sources, w.1 = searchKey s q) ∧ w.2.2 = now + ttl)
    ∧ (∀ cp ∈ (search_manga_go plugin encM decM now ttl q refresh sources
        cache st).calls, cp.1 ∈ sources ∧ cp.2 = q)
    ∧ (refresh = true →
        (search_manga_go plugin encM decM now ttl q refresh sources cache
          st).reads = [])
    ∧ (∀ lst, refresh = false →
        (search_manga_go plugin encM decM now ttl q refresh sources cache
          st).results = .ok lst →
        (search_manga_go plugin encM decM now ttl q refresh sources cache
          st).reads = sources.map (fun s => searchKey s q)) := by
  induction sources with
  | nil =>
    intro cache st
    refine ⟨?_, ?_, ?_, ?_, ?_⟩ <;> simp [search_manga_go]
  | cons source rest ih =>
    intro cache st
    simp only [search_manga_go]
    cases hhit : (if refresh then none
        else (get_cache cache (searchKey source q) now).bind decM) with
    | some medias =>
      dsimp only
      obtain ⟨ihr, ihw, ihc, iht, ihf⟩ := ih cache (persistResults st source medias)
      refine ⟨?_, ?_, ?_, ?_, ?_⟩
      · intro k hk
        rcases List.mem_append.mp hk with hk1 | hk2
        · by_cases hr : refresh = true
          · subst hr
            simp at hk1
          · rw [eq_false_of_ne_true hr] at hk1
            simp at hk1
            exact ⟨source, by simp, hk1⟩
        · obtain ⟨s, hs, hkk⟩ := ihr k hk2
          exact ⟨s, by simp [hs], hkk⟩
      · intro w hw
        obtain ⟨⟨s, hs, hw1⟩, hw2⟩ := ihw w hw
        exact ⟨⟨s, by simp [hs], hw1⟩, hw2⟩
      · intro cp hcp
        obtain ⟨h1, h2⟩ := ihc cp hcp
        exact ⟨by simp [h1], h2⟩
      · intro hr
        subst hr
        simp at hhit
      · intro lst hr hres
        subst hr
        obtain ⟨lst2, hok, -⟩ := except_map_ok _ _ _ hres
        have hrec := ihf lst2 rfl hok
        simp [hrec]
    | none =>
      dsimp only
      cases hcall : plugin source q with
      | error e =>
        dsimp only
        refine ⟨?_, ?_, ?_, ?_, ?_⟩
        · intro k hk
          by_cases hr : refresh = true
          · subst hr
            simp at hk
          · rw [eq_false_of_ne_true hr] at hk
            simp at hk
            exact ⟨source, by simp, hk⟩
        · intro w hw
          simp at hw
        · intro cp hcp
          rcases List.mem_singleton.mp hcp with rfl
          exact ⟨by simp, rfl⟩
        · intro hr
          subst hr
          simp
        · intro lst hr hres
          cases hres
      | ok res =>
        dsimp only
        obtain ⟨ihr, ihw, ihc, iht, ihf⟩ := ih
          (put_cache cache (searchKey source q) (encM res) (now + ttl))
          (persistResults st source res)
        refine ⟨?_, ?_, ?_, ?_, ?_⟩
        · intro k hk
          rcases List.mem_append.mp hk with hk1 | hk2
          · by_cases hr : refresh = true
            · subst hr
              simp at hk1
            · rw [eq_false_of_ne_true hr] at hk1
              simp at hk1
              exact ⟨source, by simp, hk1⟩
          · obtain ⟨s, hs, hkk⟩ := ihr k hk2
            exact ⟨s, by simp [hs], hkk⟩
        · intro w hw
          rcases List.mem_cons.mp hw with rfl | hw2
          · exact ⟨⟨source, by simp, rfl⟩, rfl⟩
          · obtain ⟨⟨s, hs, hw1⟩, hw2⟩ := ihw w hw2
            exact ⟨⟨s, by simp [hs], hw1⟩, hw2⟩
        · intro cp hcp
          rcases List.mem_cons.mp hcp with rfl | hcp2
          · exact ⟨by simp, rfl⟩
          · obtain ⟨h1, h2⟩ := ihc cp hcp2
            exact ⟨by simp [h1], h2⟩
        · intro hr
          subst hr
          simp [iht rfl]
        · intro lst hr hres
          subst hr
          obtain ⟨lst2, hok, -⟩ := except_map_ok _ _ _ hres
          have hrec := ihf lst2 rfl hok
          simp [hrec]

/-- C3 (amended): every cache key read or written by the cached manga
search is source ++ "|search|manga|" ++ norm_query q, where the media-kind
tag is spelled in lowercase ("manga", and "anime" for the anime search) —
not the "Manga"/"Anime" of the claimed key grammar; all keys are written
with expires_at = now + search_ttl; on a cache miss the plugin is invoked
with the RAW query, never the normalized one; with refresh no key is read;
on a fully successful non-refresh search exactly the keys of all listed
sources are read in order; and two queries that normalize identically
compose identical keys. -/
theorem claim_C3_search_cache_key :
    (∀ (plugin : String → String → Except String (List Media))
       (encM : List Media → String) (decM : String → Option (List Media))
       (now ttl : Int) (q : String) (refresh : Bool) (sources : List String)
       (cache : Cache) (st : MapState),
      (∀ k ∈ (search_manga_go plugin encM decM now ttl q refresh sources
          cache st).reads, ∃ s ∈ sources, k = searchKey s q)
      ∧ (∀ w ∈ (search_manga_go plugin encM decM now ttl q refresh sources
          cache st).writes,
          (∃ s ∈ sources, w.1 = searchKey s q) ∧ w.2.2 = now + ttl)
      ∧ (∀ cp ∈ (search_manga_go plugin encM decM now ttl q refresh sources
          cache st).calls, cp.1 ∈ sources ∧ cp.2 = q)
      ∧ (refresh = true →
          (search_manga_go plugin encM decM now ttl q refresh sources cache
            st).reads = [])
      ∧ (∀ lst, refresh = false →
          (search_manga_go plugin encM decM now ttl q refresh sources cache
            st).results = .ok lst →
          (search_manga_go plugin encM decM now ttl q refresh sources cache
            st).reads = sources.map (fun s => searchKey s q)))
    ∧ (∀ (s q1 q2 : String), norm_query q1 = norm_query q2 →
        searchKey s q1 = searchKey s q2
        ∧ searchKeyAnime s q1 = searchKeyAnime s q2)
    ∧ (∀ (s q : String),
        searchKey s q = s ++ "|search|manga|" ++ norm_query q
        ∧ searchKeyAnime s q = s ++ "|search|anime|" ++ norm_query q) := by
  refine ⟨?_, ?_, fun s q => ⟨rfl, rfl⟩⟩
  · intro plugin encM decM now ttl q refresh sources cache st
    exact search_trace_spec plugin encM decM now ttl q refresh sources cache st
  · intro s q1 q2 h
    rw [searchKey, searchKey, searchKeyAnime, searchKeyAnime, h]
    exact ⟨rfl, rfl⟩

/-- Witness for the amended C3 at concrete inputs. -/
theorem claim_C3_search_cache_key_witness :
    (search_manga_go (fun _ _ => Except.ok []) (fun _ => "[]") (fun _ => none)
        0 3600 "  The Summer  " true ["p1"] emptyCache
        (initMapState (fun _ => "u0"))).reads = []
    ∧ searchKey "p1" "the summer" = searchKey "p1" "  The Summer  " :=
  ⟨(claim_C3_search_cache_key.1 (fun _ _ => Except.ok []) (fun _ => "[]")
      (fun _ => none) 0 3600 "  The Summer  " true ["p1"] emptyCache
      (initMapState (fun _ => "u0"))).2.2.2.1 rfl,
   (claim_C3_search_cache_key.2.1 "p1" "the summer" "  The Summer  "
      (by decide)).1⟩

/-! ## Claim C6: chapter-image caching with dual ids -/

theorem string_append_left_cancel {s a b : String} (h : s ++ a = s ++ b) :
    a = b := by
  cases s with | mk sd =>
  cases a with | mk ad =>
  cases b with | mk bd =>
  have h2 : String.mk (sd ++ ad) = String.mk (sd ++ bd) := h
  have h3 : sd ++ ad = sd ++ bd := congrArg String.data h2
  exact congrArg String.mk (List.append_cancel_left h3)

theorem get_cache_none {c : Cache} {k : String} (now : Int)
    (h : c k = none) : get_cache c k now = none := by
  simp [get_cache, h]

theorem get_cache_some {c : Cache} {k p : String} {e : Int} (now : Int)
    (h : c k = some (p, e)) (hlt : now < e) : get_cache c k now = some p := by
  have hc : e > now := by omega
  simp [get_cache, h, hc]

theorem images_hit_spec (chapters : List ChapterIdRow)
    (manager : String → Option String × List String)
    (enc : List String → String) (dec : String → Option (List String))
    (cache : Cache) (now ttl : Int) (id : String) (urls : List String)
    (hhit : (get_cache cache ("all|pages|" ++ id) now).bind dec = some urls) :
    get_chapter_images_with_refresh chapters manager enc dec cache now ttl id
      false = ⟨urls, cache, []⟩ := by
  simp only [get_chapter_images_with_refresh]
  rw [hhit]
  rfl

theorem images_hit_ext_spec (chapters : List ChapterIdRow)
    (manager : String → Option String × List String)
    (enc : List String → String) (dec : String → Option (List String))
    (cache : Cache) (now ttl : Int) (id : String) (urls : List String)
    (hmiss : (get_cache cache ("all|pages|" ++ id) now).bind dec = none)
    (hne : "all|pages|" ++ resolve_chapter_external_id chapters id ≠
      "all|pages|" ++ id)
    (hhit : (get_cache cache
        ("all|pages|" ++ resolve_chapter_external_id chapters id) now).bind
        dec = some urls) :
    get_chapter_images_with_refresh chapters manager enc dec cache now ttl id
      false = ⟨urls, cache, []⟩ := by
  simp only [get_chapter_images_with_refresh]
  rw [hmiss, if_pos hne, hhit]
  rfl

theorem images_miss_spec (chapters : List ChapterIdRow)
    (manager : String → Option String × List String)
    (enc : List String → String) (dec : String → Option (List String))
    (cache : Cache) (now ttl : Int) (id : String)
    (hmiss1 : (get_cache cache ("all|pages|" ++ id) now).bind dec = none)
    (hmiss2 : (get_cache cache
        ("all|pages|" ++ resolve_chapter_external_id chapters id) now).bind
        dec = none) :
    (get_chapter_images_with_refresh chapters manager enc dec cache now ttl
        id false).queried.head? = some id
    ∧ (get_chapter_images_with_refresh chapters manager enc dec cache now ttl
        id false).cache
        ("all|pages|" ++ resolve_chapter_external_id chapters id) =
        some (enc (get_chapter_images_with_refresh chapters manager enc dec
          cache now ttl id false).urls, now + ttl)
    ∧ (get_chapter_images_with_refresh chapters manager enc dec cache now ttl
        id false).cache ("all|pages|" ++ id) =
        some (enc (get_chapter_images_with_refresh chapters manager enc dec
          cache now ttl id false).urls, now + ttl)
    ∧ (∀ k, k ≠ "all|pages|" ++ id →
        k ≠ "all|pages|" ++ resolve_chapter_external_id chapters id →
        (get_chapter_images_with_refresh chapters manager enc dec cache now
          ttl id false).cache k = cache k) := by
  have hbody : get_chapter_images_with_refresh chapters manager enc dec cache
      now ttl id false =
      (let original_id := id
       let external_id := resolve_chapter_external_id chapters id
       let key_orig := "all|pages|" ++ original_id
       let key_ext := "all|pages|" ++ external_id
       let firstTry := manager original_id
       let step :=
         if !firstTry.2.isEmpty then (firstTry.2, [original_id])
         else if original_id == external_id then ([], [original_id])
         else
           let secondTry := manager external_id
           (secondTry.2, [original_id, external_id])
       let payload := enc step.1
       let expires_at := now + ttl
       let cache1 := put_cache cache key_ext payload expires_at
       let cache2 :=
         if key_orig ≠ key_ext then
           put_cache cache1 key_orig payload expires_at
         else cache1
       (⟨step.1, cache2, step.2⟩ : ImagesOut)) := by
    simp only [get_chapter_images_with_refresh]
    rw [hmiss1]
    by_cases hk : "all|pages|" ++ resolve_chapter_external_id chapters id ≠
        "all|pages|" ++ id
    · rw [if_pos hk, hmiss2]
      rfl
    · rw [if_neg hk]
      rfl
  rw [hbody]
  dsimp only
  refine ⟨?_, ?_, ?_, ?_⟩
  · by_cases h1 : (!(manager id).2.isEmpty) = true
    · rw [if_pos h1]
      rfl
    · rw [if_neg h1]
      by_cases h2 : (id == resolve_chapter_external_id chapters id) = true
      · rw [if_pos h2]
        rfl
      · rw [if_neg h2]
        rfl
  · by_cases hk : ("all|pages|" ++ id) ≠
        ("all|pages|" ++ resolve_chapter_external_id chapters id)
    · rw [if_pos hk]
      simp only [put_cache]
      rw [if_neg (fun h => hk h.symm)]
      simp
    · rw [if_neg hk]
      simp only [put_cache]
      simp
  · by_cases hk : ("all|pages|" ++ id) ≠
        ("all|pages|" ++ resolve_chapter_external_id chapters id)
    · rw [if_pos hk]
      simp only [put_cache]
      simp
    · rw [if_neg hk]
      have hkk : ("all|pages|" ++ id) =
          ("all|pages|" ++ resolve_chapter_external_id chapters id) :=
        not_ne_iff.mp hk
      simp only [put_cache]
      rw [if_pos hkk]
  · intro k hk1 hk2
    by_cases hk : ("all|pages|" ++ id) ≠
        ("all|pages|" ++ resolve_chapter_external_id chapters id)
    · rw [if_pos hk]
      simp only [put_cache]
      rw [if_neg hk1, if_neg hk2]
    · rw [if_neg hk]
      simp only [put_cache]
      rw [if_neg hk2]

/-- Counterexample to C6 as stated: with chapter (canonical "C-1", external
"E-1") known to the store, a cache-miss call with the canonical id invokes
the plugin manager with "C-1" (the claim says the external id is always
used); and a call with the external id writes through under
"all|pages|E-1" only — the canonical key "all|pages|C-1" is never written
(the claim says the write goes under the canonical key). -/
theorem claim_C6_counterexample :
    (get_chapter_images_with_refresh [⟨"C-1", "E-1"⟩]
        (fun i => (some "p", if i == "C-1" then ["u1"] else []))
        (fun _ => "J") (fun _ => none) emptyCache 100 86400 "C-1"
        false).queried = ["C-1"]
    ∧ (get_chapter_images_with_refresh [⟨"C-1", "E-1"⟩]
        (fun i => (some "p", if i == "C-1" then ["u1"] else []))
        (fun _ => "J") (fun _ => none) emptyCache 100 86400 "E-1"
        false).cache "all|pages|C-1" = none := by
  constructor
  · decide
  · decide

/-- C6 (amended): for a chapter whose canonical id C and external id E are
both known, get_chapter_images builds its cache keys from the PROVIDED id
and the resolved external id (not from the canonical id as such); on a miss
it invokes the first-hit manager with the provided id first (so with C when
called with C); it writes the result through under the external-id key (and
the provided-id key when distinct) with expires_at = now + pages_ttl; and a
second call with the other id within the TTL hits the cache and performs no
plugin invocation. -/
theorem claim_C6_dual_id_caching (chapters : List ChapterIdRow)
    (manager : String → Option String × List String)
    (enc : List String → String) (dec : String → Option (List String))
    (cache : Cache) (now now2 ttl : Int) (C E id1 id2 : String)
    (hrowC : chapters.find? (fun c => c.id == C) = some ⟨C, E⟩)
    (hrowE : chapters.find? (fun c => c.id == E) = none)
    (hCE : C ≠ E)
    (hcacheC : cache ("all|pages|" ++ C) = none)
    (hcacheE : cache ("all|pages|" ++ E) = none)
    (hid : (id1 = C ∧ id2 = E) ∨ (id1 = E ∧ id2 = C))
    (hdec : dec (enc (get_chapter_images_with_refresh chapters manager enc
        dec cache now ttl id1 false).urls) =
      some (get_chapter_images_with_refresh chapters manager enc dec cache
        now ttl id1 false).urls)
    (hnow : now2 < now + ttl) :
    (get_chapter_images_with_refresh chapters manager enc dec cache now ttl
        id1 false).queried.head? = some id1
    ∧ (get_chapter_images_with_refresh chapters manager enc dec cache now
        ttl id1 false).cache ("all|pages|" ++ E) =
        some (enc (get_chapter_images_with_refresh chapters manager enc dec
          cache now ttl id1 false).urls, now + ttl)
    ∧ get_chapter_images_with_refresh chapters manager enc dec
        (get_chapter_images_with_refresh chapters manager enc dec cache now
          ttl id1 false).cache now2 ttl id2 false =
      ⟨(get_chapter_images_with_refresh chapters manager enc dec cache now
          ttl id1 false).urls,
       (get_chapter_images_with_refresh chapters manager enc dec cache now
          ttl id1 false).cache, []⟩ := by
  have hresC : resolve_chapter_external_id chapters C = E := by
    simp [resolve_chapter_external_id, hrowC]
  have hresE : resolve_chapter_external_id chapters E = E := by
    simp [resolve_chapter_external_id, hrowE]
  have hkCE : ("all|pages|" ++ C) ≠ ("all|pages|" ++ E) :=
    fun h => hCE (string_append_left_cancel h)
  have hkEC : ("all|pages|" ++ E) ≠ ("all|pages|" ++ C) :=
    fun h => hCE (string_append_left_cancel h).symm
  rcases hid with ⟨rfl, rfl⟩ | ⟨rfl, rfl⟩
  · -- first call with the canonical id (id1 = C), second with the external
    -- id (id2 = E)
    have hm1 : (get_cache cache ("all|pages|" ++ id1) now).bind dec = none := by
      rw [get_cache_none now hcacheC]
      rfl
    have hm2 : (get_cache cache
        ("all|pages|" ++ resolve_chapter_external_id chapters id1) now).bind
        dec = none := by
      rw [hresC, get_cache_none now hcacheE]
      rfl
    obtain ⟨hA, hB, hB2, hOther⟩ :=
      images_miss_spec chapters manager enc dec cache now ttl id1 hm1 hm2
    rw [hresC] at hB
    refine ⟨hA, hB, ?_⟩
    have hh : (get_cache (get_chapter_images_with_refresh chapters manager
        enc dec cache now ttl id1 false).cache ("all|pages|" ++ id2)
        now2).bind dec =
        some (get_chapter_images_with_refresh chapters manager enc dec cache
          now ttl id1 false).urls := by
      rw [get_cache_some now2 hB hnow]
      exact hdec
    exact images_hit_spec chapters manager enc dec _ now2 ttl id2 _ hh
  · -- first call with the external id (id1 = E), second with the canonical
    -- id (id2 = C)
    have hm1 : (get_cache cache ("all|pages|" ++ id1) now).bind dec = none := by
      rw [get_cache_none now hcacheE]
      rfl
    have hm2 : (get_cache cache
        ("all|pages|" ++ resolve_chapter_external_id chapters id1) now).bind
        dec = none := by
      rw [hresE, get_cache_none now hcacheE]
      rfl
    obtain ⟨hA, hB, hB2, hOther⟩ :=
      images_miss_spec chapters manager enc dec cache now ttl id1 hm1 hm2
    rw [hresE] at hB hOther
    refine ⟨hA, hB, ?_⟩
    have hmissC : (get_cache (get_chapter_images_with_refresh chapters
        manager enc dec cache now ttl id1 false).cache ("all|pages|" ++ id2)
        now2).bind dec = none := by
      rw [get_cache_none now2 (by rw [hOther _ hkCE hkCE]; exact hcacheC)]
      rfl
    have hne2 : "all|pages|" ++ resolve_chapter_external_id chapters id2 ≠
        "all|pages|" ++ id2 := by
      rw [hresC]
      exact hkEC
    have hh : (get_cache (get_chapter_images_with_refresh chapters manager
        enc dec cache now ttl id1 false).cache
        ("all|pages|" ++ resolve_chapter_external_id chapters id2)
        now2).bind dec =
        some (get_chapter_images_with_refresh chapters manager enc dec cache
          now ttl id1 false).urls := by
      rw [hresC, get_cache_some now2 hB hnow]
      exact hdec
    exact images_hit_ext_spec chapters manager enc dec _ now2 ttl id2 _
      hmissC hne2 hh

/-- Witness for the amended C6 at concrete inputs. -/
theorem claim_C6_dual_id_caching_witness :
    (get_chapter_images_with_refresh [⟨"C", "E"⟩]
        (fun _ => (some "p", ["u"])) (fun _ => "P")
        (fun s => if s == "P" then some ["u"] else none) emptyCache 0 100 "C"
        false).queried.head? = some "C" :=
  (claim_C6_dual_id_caching [⟨"C", "E"⟩] (fun _ => (some "p", ["u"]))
      (fun _ => "P") (fun s => if s == "P" then some ["u"] else none)
      emptyCache 0 5 100 "C" "E" "C" "E" (by decide) rfl (by decide) rfl rfl
      (Or.inl ⟨rfl, rfl⟩) (by decide) (by decide)).1

end Touring
